import Mathlib

/-!
A verification development for the three-player tennis rotation program
(`src/tennis_rotation.py`).  The rotation ledger (`TennisRotation`) and the
point/match simulator (`RotationVisualizer._play_point` / `_play_match`) are
embedded shallowly:

* Python floats are modelled as exact rationals (`ℚ`); the decimal constants
  of the source (0.08, 0.01, ...) become the corresponding rationals.
* Python dicts keyed by player name are modelled as total functions
  `String → _`; the key set of every dict in the program is the fixed name
  list, and the one dict read that can raise `KeyError` on the modelled
  paths (`self._streaks[winner]` in `record_match`) is modelled by an
  explicit membership test against that list.
* `random.random()` draws are an explicit stream of rationals in `[0,1)`;
  `random.randint(0,1)` maps a draw `r` to `if r < 1/2 then 0 else 1` and
  `random.choice(seq)` maps a draw `r` to `seq[⌊r * len(seq)⌋]`.  Every
  modelled decision point consumes draws in exactly the order the source
  calls the `random` module, including short-circuit evaluation of `and`.
* The `flet` page / ball / marker objects are presentation only; the one
  place where their presence changes the consumed randomness (the ace
  animation draw, lines 754-757) is modelled by an explicit `emit` flag.
-/

set_option maxHeartbeats 3200000

namespace TennisSim

/-- `PlayerProfile` (lines 51-61): fixed skill attributes per player. -/
structure PlayerProfile where
  name : String
  color : String
  forehand : ℚ := 1/2
  backhand : ℚ := 1/2
  net_game : ℚ := 1/2
  consistency : ℚ := 1/2
  speed : ℚ := 1/2
  serve : ℚ := 1/2
deriving Repr

/-- `DEFAULT_PROFILES` (lines 64-68). -/
def DEFAULT_PROFILES : List PlayerProfile :=
  [ { name := "Player 1", color := "#4FC3F7", forehand := 7/10, backhand := 2/5,
      net_game := 3/10, consistency := 3/5, speed := 1/2, serve := 3/5 },
    { name := "Player 2", color := "#81C784", forehand := 1/2, backhand := 3/5,
      net_game := 7/10, consistency := 1/2, speed := 3/5, serve := 2/5 },
    { name := "Player 3", color := "#FFD54F", forehand := 2/5, backhand := 1/2,
      net_game := 1/2, consistency := 7/10, speed := 7/10, serve := 1/2 } ]

/-- `MatchSnapshot` (lines 105-113). -/
structure MatchSnapshot where
  winner : String
  loser : String
  score : ℕ × ℕ
  active_after : String × String
  bench_after : String
  forced_bench : Bool
  streak_after : ℤ
deriving Repr

/-- `PlayerStats` (lines 116-120). -/
structure PlayerStats where
  wins : ℤ := 0
  losses : ℤ := 0
  current_streak : ℤ := 0
deriving Repr

/-- The exceptions the ledger code can actually raise.  The source defines no
error classes of its own: a `winner` that is no key of `self._streaks` raises
Python's built-in `KeyError` (line 162), and a profile list shorter than three
raises `IndexError` in the constructor (lines 129-130). -/
inductive RotationError where
  | keyError : RotationError
  | indexError : RotationError
deriving Repr, DecidableEq

/-- The state of a `TennisRotation` object (fields set in `__init__`,
lines 126-134).  `streaks` and `stats` are the dicts keyed by the entries of
`names`, modelled as total functions. -/
structure TennisRotation where
  names : List String
  active : String × String
  bench : String
  streaks : String → ℤ
  history : List MatchSnapshot
  stats : String → PlayerStats
  max_streak : ℤ

namespace TennisRotation

/-- `TennisRotation.__init__` (lines 126-134).  The constructor performs no
validation: it reads `names[0]`, `names[1]`, `names[2]`, so it fails (with
`IndexError`) exactly when fewer than three profiles are given; any longer
list and any `max_streak` (including non-positive ones) are accepted. -/
def init (profiles : List PlayerProfile) (max_streak : ℤ) :
    Except RotationError TennisRotation :=
  let names := profiles.map PlayerProfile.name
  if h : 2 < names.length then
    .ok { names := names
          active := (names.get ⟨0, by omega⟩, names.get ⟨1, by omega⟩)
          bench := names.get ⟨2, h⟩
          streaks := fun _ => 0
          history := []
          stats := fun _ => {}
          max_streak := max_streak }
  else .error .indexError

/-- The body of `record_match` (lines 159-186) past the `KeyError` point:
the mutations performed on the object, in source order, and the emitted
snapshot.  The `loser` is read off the active pair before anything is
mutated (line 160). -/
def applyMatch (s : TennisRotation) (winner : String) (score : ℕ × ℕ) :
    MatchSnapshot × TennisRotation :=
  let loser := if s.active.2 = winner then s.active.1 else s.active.2
  let bench_before := s.bench
  let streaks1 : String → ℤ :=
    fun n => if n = winner then s.streaks winner + 1 else s.streaks n
  let streaks2 : String → ℤ := fun n => if n = loser then 0 else streaks1 n
  let stats1 : String → PlayerStats :=
    fun n => if n = winner then
      { wins := (s.stats winner).wins + 1, losses := (s.stats winner).losses,
        current_streak := streaks2 winner }
    else s.stats n
  let stats2 : String → PlayerStats :=
    fun n => if n = loser then
      { wins := (stats1 loser).wins, losses := (stats1 loser).losses + 1,
        current_streak := 0 }
    else stats1 n
  if s.max_streak ≤ streaks2 winner then
    -- forced-rest branch (lines 172-178)
    let streaks3 : String → ℤ := fun n => if n = winner then 0 else streaks2 n
    let stats3 : String → PlayerStats :=
      fun n => if n = winner then
        { wins := (stats2 winner).wins, losses := (stats2 winner).losses,
          current_streak := 0 }
      else stats2 n
    let returning := loser
    let snap : MatchSnapshot :=
      { winner := winner, loser := loser, score := score,
        active_after := (bench_before, returning), bench_after := winner,
        forced_bench := true, streak_after := streaks3 winner }
    (snap, { s with active := (bench_before, returning), bench := winner,
                    streaks := streaks3, stats := stats3,
                    history := s.history ++ [snap] })
  else
    let snap : MatchSnapshot :=
      { winner := winner, loser := loser, score := score,
        active_after := (winner, bench_before), bench_after := loser,
        forced_bench := false, streak_after := streaks2 winner }
    (snap, { s with active := (winner, bench_before), bench := loser,
                    streaks := streaks2, stats := stats2,
                    history := s.history ++ [snap] })

/-- `record_match` (lines 159-186).  The only statement that can raise on this
path is `self._streaks[winner] += 1` (line 162), a `KeyError` when `winner` is
not a key of the streak dict (i.e. not one of the session's names); at that
point nothing has been mutated yet, so the error case carries no state
change.  There is no `InvalidParticipant` check: any session name is accepted
as `winner`, even the bench player. -/
def record_match (s : TennisRotation) (winner : String) (score : ℕ × ℕ) :
    Except RotationError (MatchSnapshot × TennisRotation) :=
  if winner ∈ s.names then .ok (applyMatch s winner score) else .error .keyError

/-- `reset` (lines 188-189). -/
def reset (s : TennisRotation) (profiles : List PlayerProfile) :
    Except RotationError TennisRotation :=
  init profiles s.max_streak

end TennisRotation

/-- The states reachable by the orchestration loop: the constructed initial
state, then any sequence of `record_match` calls whose `winner` is one of the
two currently active players (which is how `_play_match`, line 712, always
calls it). -/
inductive Reachable (profiles : List PlayerProfile) (ms : ℤ) :
    TennisRotation → Prop where
  | init (s : TennisRotation) :
      TennisRotation.init profiles ms = .ok s → Reachable profiles ms s
  | step (s : TennisRotation) (w : String) (sc : ℕ × ℕ)
      (snap : MatchSnapshot) (s' : TennisRotation) :
      Reachable profiles ms s → (w = s.active.1 ∨ w = s.active.2) →
      TennisRotation.record_match s w sc = .ok (snap, s') →
      Reachable profiles ms s'

/-- The first three session names (the only ones the rotation ever moves
through court and bench), as a multiset. -/
def fixedTrio (profiles : List PlayerProfile) : Multiset String :=
  ((profiles.map PlayerProfile.name).take 3 : List String)

/-- The inductive invariant of the ledger: the active pair and bench player
are three distinct names partitioning the fixed trio, every player off the
active pair has streak 0, at least one active player has streak 0, and the
`stats` dict's `current_streak` mirrors the streak dict. -/
def LedgerInv (profiles : List PlayerProfile) (s : TennisRotation) : Prop :=
  s.active.1 ≠ s.active.2 ∧ s.bench ≠ s.active.1 ∧ s.bench ≠ s.active.2 ∧
  ({s.active.1, s.active.2, s.bench} : Multiset String) = fixedTrio profiles ∧
  (∀ p, p ≠ s.active.1 → p ≠ s.active.2 → s.streaks p = 0) ∧
  (s.streaks s.active.1 = 0 ∨ s.streaks s.active.2 = 0) ∧
  (∀ p, (s.stats p).current_streak = s.streaks p)

theorem record_match_ok {s : TennisRotation} {w : String} {sc : ℕ × ℕ}
    {snap : MatchSnapshot} {s' : TennisRotation}
    (h : TennisRotation.record_match s w sc = .ok (snap, s')) :
    w ∈ s.names ∧ TennisRotation.applyMatch s w sc = (snap, s') := by
  by_cases hm : w ∈ s.names
  · refine ⟨hm, ?_⟩
    rw [TennisRotation.record_match, if_pos hm] at h
    exact (Except.ok.injEq _ _).mp h
  · rw [TennisRotation.record_match, if_neg hm] at h
    exact absurd h (by simp)

theorem multiset_rot (x y z : String) :
    ({x, y, z} : Multiset String) = {z, x, y} := by
  show x ::ₘ y ::ₘ z ::ₘ 0 = z ::ₘ x ::ₘ y ::ₘ 0
  rw [congrArg (x ::ₘ ·) (Multiset.cons_swap y z 0), Multiset.cons_swap]

theorem multiset_swap23 (x y z : String) :
    ({x, y, z} : Multiset String) = {x, z, y} := by
  show x ::ₘ y ::ₘ z ::ₘ 0 = x ::ₘ z ::ₘ y ::ₘ 0
  exact congrArg (x ::ₘ ·) (Multiset.cons_swap y z 0)

/-- The shared core of the invariant-preservation argument, phrased over the
winner `w` and the loser `l` (the other active player). -/
theorem ledgerInv_core {profiles : List PlayerProfile}
    (s : TennisRotation) (w l : String) (sc : ℕ × ℕ)
    (hwl : w ≠ l) (hwb : w ≠ s.bench) (hlb : l ≠ s.bench)
    (hzero : ∀ p, p ≠ w → p ≠ l → s.streaks p = 0)
    (htrio : ({w, l, s.bench} : Multiset String) = fixedTrio profiles)
    (hsync : ∀ p, (s.stats p).current_streak = s.streaks p)
    (hlosr : (if s.active.2 = w then s.active.1 else s.active.2) = l) :
    LedgerInv profiles (TennisRotation.applyMatch s w sc).2 := by
  have hbz : s.streaks s.bench = 0 := hzero _ (Ne.symm hwb) (Ne.symm hlb)
  simp only [TennisRotation.applyMatch, hlosr, eq_self_iff_true, if_true,
    if_neg hwl, if_neg (Ne.symm hwl)]
  by_cases hforced : s.max_streak ≤ s.streaks w + 1
  · rw [if_pos hforced]
    refine ⟨Ne.symm hlb, hwb, hwl, ?_, ?_, ?_, ?_⟩
    · show ({s.bench, l, w} : Multiset String) = fixedTrio profiles
      rw [← htrio, multiset_rot s.bench l w]
      exact multiset_swap23 w s.bench l
    · intro p hp1 hp2
      show (if p = w then (0:ℤ) else if p = l then 0
            else if p = w then s.streaks w + 1 else s.streaks p) = 0
      by_cases hpw : p = w
      · rw [if_pos hpw]
      · rw [if_neg hpw, if_neg hp2, if_neg hpw]
        exact hzero p hpw hp2
    · left
      show (if s.bench = w then (0:ℤ) else if s.bench = l then 0
            else if s.bench = w then s.streaks w + 1 else s.streaks s.bench) = 0
      rw [if_neg (Ne.symm hwb), if_neg (Ne.symm hlb), if_neg (Ne.symm hwb)]
      exact hbz
    · intro p
      by_cases hpw : p = w
      · simp only [if_pos hpw]
      · simp only [if_neg hpw]
        by_cases hpl : p = l
        · simp only [if_pos hpl, if_neg (hpl ▸ hwl).symm.elim]
        · simp only [if_neg hpl, if_neg hpw]
          exact hsync p
  · rw [if_neg hforced]
    refine ⟨hwb, Ne.symm hwl, hlb, ?_, ?_, ?_, ?_⟩
    · show ({w, s.bench, l} : Multiset String) = fixedTrio profiles
      rw [← htrio]
      exact (multiset_swap23 w l s.bench).symm
    · intro p hp1 hp2
      show (if p = l then (0:ℤ)
            else if p = w then s.streaks w + 1 else s.streaks p) = 0
      by_cases hpl : p = l
      · rw [if_pos hpl]
      · rw [if_neg hpl, if_neg hp1]
        exact hzero p hp1 hpl
    · right
      show (if s.bench = l then (0:ℤ)
            else if s.bench = w then s.streaks w + 1 else s.streaks s.bench) = 0
      rw [if_neg (Ne.symm hlb), if_neg (Ne.symm hwb)]
      exact hbz
    · intro p
      by_cases hpl : p = l
      · simp only [if_pos hpl]
      · simp only [if_neg hpl]
        by_cases hpw : p = w
        · simp only [if_pos hpw]
        · simp only [if_neg hpw]
          exact hsync p

theorem take3_of_lt {l : List String} (h : 2 < l.length) :
    l.take 3 = [l.get ⟨0, by omega⟩, l.get ⟨1, by omega⟩, l.get ⟨2, h⟩] := by
  rcases l with - | ⟨a, - | ⟨b, - | ⟨c, t⟩⟩⟩ <;> simp at h ⊢

/-- The constructed initial state satisfies the ledger invariant whenever the
configured names are distinct. -/
theorem ledgerInv_init {profiles : List PlayerProfile} {ms : ℤ}
    {s : TennisRotation}
    (hnd : (profiles.map PlayerProfile.name).Nodup)
    (h : TennisRotation.init profiles ms = .ok s) :
    LedgerInv profiles s := by
  rw [TennisRotation.init] at h
  by_cases h3 : 2 < (profiles.map PlayerProfile.name).length
  · rw [dif_pos h3] at h
    obtain rfl := (Except.ok.inj h).symm
    have hget : ∀ (i j : Fin (profiles.map PlayerProfile.name).length),
        i ≠ j → (profiles.map PlayerProfile.name).get i ≠
          (profiles.map PlayerProfile.name).get j :=
      fun i j hij hh => hij (hnd.get_inj_iff.mp hh)
    refine ⟨hget _ _ (by simp), hget _ _ (by simp), hget _ _ (by simp),
      ?_, fun p _ _ => rfl, Or.inl rfl, fun p => rfl⟩
    show _ = fixedTrio profiles
    rw [fixedTrio, take3_of_lt h3]
    rfl
  · rw [dif_neg h3] at h
    exact absurd h (by simp)

/-- Every reachable state satisfies the ledger invariant. -/
theorem ledgerInv_reachable {profiles : List PlayerProfile} {ms : ℤ}
    {s : TennisRotation}
    (hnd : (profiles.map PlayerProfile.name).Nodup)
    (hr : Reachable profiles ms s) : LedgerInv profiles s := by
  induction hr with
  | init s hs => exact ledgerInv_init hnd hs
  | step s w sc snap s' hr hw hok ih =>
    obtain ⟨hne, hb1, hb2, htrio, hzero, hone, hsync⟩ := ih
    obtain ⟨-, happ⟩ := record_match_ok hok
    have hs' : s' = (TennisRotation.applyMatch s w sc).2 := by rw [happ]
    rw [hs']
    rcases hw with hw | hw
    · refine ledgerInv_core s w s.active.2 sc (hw ▸ hne) (hw ▸ (Ne.symm hb1))
        (Ne.symm hb2) (fun p h1 h2 => hzero p (hw ▸ h1) h2) ?_ hsync ?_
      · rw [← hw] at htrio
        exact htrio
      · exact if_neg (fun hh => hne (hh.trans hw).symm)
    · refine ledgerInv_core s w s.active.1 sc (fun hh => hne (hw ▸ hh).symm)
        (hw ▸ (Ne.symm hb2)) (Ne.symm hb1)
        (fun p h1 h2 => hzero p h2 (hw ▸ h1)) ?_ hsync (if_pos hw.symm)
      rw [← htrio, ← hw]
      exact Multiset.cons_swap w s.active.1 {s.bench}

/-- Convenience accessor for stating concrete examples: the state a successful
construction yields (`init` never fails on the inputs it is applied to
below). -/
def initOk (profiles : List PlayerProfile) (ms : ℤ) : TennisRotation :=
  match TennisRotation.init profiles ms with
  | .ok s => s
  | .error _ =>
    { names := [], active := ("", ""), bench := "", streaks := fun _ => 0,
      history := [], stats := fun _ => {}, max_streak := ms }

/-- Convenience accessor for stating concrete examples: the post-state of a
successful `record_match` call. -/
def stepOk (s : TennisRotation) (w : String) (sc : ℕ × ℕ) : TennisRotation :=
  match TennisRotation.record_match s w sc with
  | .ok (_, s') => s'
  | .error _ => s

/-- C3: after every valid `record_match` call (winner currently active),
at most one player has a positive streak: a loss zeroes the loser's streak
(line 163), a win increments only the winner's (line 162), and the bench
player's streak is always zero. -/
theorem claim_C3_at_most_one_streak (profiles : List PlayerProfile) (ms : ℤ)
    (s : TennisRotation)
    (hnd : (profiles.map PlayerProfile.name).Nodup)
    (hr : Reachable profiles ms s) :
    ∀ p q, p ≠ q → 0 < s.streaks p → s.streaks q = 0 := by
  obtain ⟨hne, hb1, hb2, htrio, hzero, hone, hsync⟩ := ledgerInv_reachable hnd hr
  intro p q hpq hp
  have hpa : p = s.active.1 ∨ p = s.active.2 := by
    by_contra hc
    push_neg at hc
    rw [hzero p hc.1 hc.2] at hp
    exact lt_irrefl 0 hp
  by_cases hq1 : q = s.active.1
  · rcases hpa with h | h
    · exact absurd (h.trans hq1.symm) hpq
    · rcases hone with h0 | h0
      · rw [hq1]; exact h0
      · rw [← h] at h0; omega
  · by_cases hq2 : q = s.active.2
    · rcases hpa with h | h
      · rcases hone with h0 | h0
        · rw [← h] at h0; omega
        · rw [hq2]; exact h0
      · exact absurd (h.trans hq2.symm) hpq
    · exact hzero q hq1 hq2

theorem claim_C3_witness :
    (stepOk (initOk DEFAULT_PROFILES 3) "Player 1" (3, 0)).streaks "Player 2"
      = 0 :=
  claim_C3_at_most_one_streak DEFAULT_PROFILES 3 _ (by decide)
    (Reachable.step _ "Player 1" (3, 0) _ _ (Reachable.init _ rfl)
      (Or.inl rfl) rfl)
    "Player 1" "Player 2" (by decide) (by decide)

/-- C4: after every valid `record_match` call, the active pair and the bench
player together are exactly the session's first three configured names, and
the active pair has two distinct members. -/
theorem claim_C4_partition (profiles : List PlayerProfile) (ms : ℤ)
    (s : TennisRotation)
    (hnd : (profiles.map PlayerProfile.name).Nodup)
    (hr : Reachable profiles ms s) :
    ({s.active.1, s.active.2, s.bench} : Multiset String) = fixedTrio profiles
      ∧ s.active.1 ≠ s.active.2 := by
  obtain ⟨hne, hb1, hb2, htrio, hzero, hone, hsync⟩ := ledgerInv_reachable hnd hr
  exact ⟨htrio, hne⟩

theorem claim_C4_witness :
    (({(stepOk (initOk DEFAULT_PROFILES 3) "Player 1" (3, 0)).active.1,
       (stepOk (initOk DEFAULT_PROFILES 3) "Player 1" (3, 0)).active.2,
       (stepOk (initOk DEFAULT_PROFILES 3) "Player 1" (3, 0)).bench} :
        Multiset String) = fixedTrio DEFAULT_PROFILES) ∧
    (stepOk (initOk DEFAULT_PROFILES 3) "Player 1" (3, 0)).active.1 ≠
      (stepOk (initOk DEFAULT_PROFILES 3) "Player 1" (3, 0)).active.2 :=
  claim_C4_partition DEFAULT_PROFILES 3 _ (by decide)
    (Reachable.step _ "Player 1" (3, 0) _ _ (Reachable.init _ rfl)
      (Or.inl rfl) rfl)

/-- C10: after every valid `record_match` call, the per-player stats entry's
`current_streak` equals the streak dict's value for every player (lines
162-175 keep the two in lock step, in both the normal and the forced-rest
branch). -/
theorem claim_C10_stats_streak_sync (profiles : List PlayerProfile) (ms : ℤ)
    (s : TennisRotation)
    (hnd : (profiles.map PlayerProfile.name).Nodup)
    (hr : Reachable profiles ms s) :
    ∀ p, (s.stats p).current_streak = s.streaks p := by
  obtain ⟨hne, hb1, hb2, htrio, hzero, hone, hsync⟩ := ledgerInv_reachable hnd hr
  exact hsync

theorem claim_C10_witness :
    ((stepOk (initOk DEFAULT_PROFILES 3) "Player 1" (3, 0)).stats
      "Player 1").current_streak =
    (stepOk (initOk DEFAULT_PROFILES 3) "Player 1" (3, 0)).streaks
      "Player 1" :=
  claim_C10_stats_streak_sync DEFAULT_PROFILES 3 _ (by decide)
    (Reachable.step _ "Player 1" (3, 0) _ _ (Reachable.init _ rfl)
      (Or.inl rfl) rfl)
    "Player 1"

/-- C2: when the winner of a valid `record_match` call reaches a streak of at
least `max_streak`, the winner goes to the bench with streak reset to 0, and
the new active pair is (previous bench player, match loser) — the player who
just lost re-enters immediately (lines 171-178). -/
theorem claim_C2_forced_rest (s : TennisRotation) (w : String) (sc : ℕ × ℕ)
    (hmem : w ∈ s.names) (hact : w = s.active.1 ∨ w = s.active.2)
    (hne : s.active.1 ≠ s.active.2)
    (hstreak : s.max_streak ≤ s.streaks w + 1) :
    ∃ snap s', TennisRotation.record_match s w sc = .ok (snap, s') ∧
      s'.bench = w ∧ s'.streaks w = 0 ∧
      s'.active = (s.bench,
        if s.active.2 = w then s.active.1 else s.active.2) ∧
      snap.forced_bench = true := by
  have hwl : w ≠ (if s.active.2 = w then s.active.1 else s.active.2) := by
    rcases hact with h1 | h2
    · rw [if_neg (fun hh => hne (hh.trans h1).symm)]
      exact fun hh2 => hne (h1 ▸ hh2)
    · rw [if_pos h2.symm]
      exact fun hh => hne (hh ▸ h2)
  refine ⟨(TennisRotation.applyMatch s w sc).1,
    (TennisRotation.applyMatch s w sc).2, ?_, ?_, ?_, ?_, ?_⟩
  · rw [TennisRotation.record_match, if_pos hmem]
  all_goals
    simp only [TennisRotation.applyMatch, eq_self_iff_true, if_true,
      if_neg hwl, if_pos hstreak]

theorem claim_C2_witness :
    ∃ snap s',
      TennisRotation.record_match
        { names := ["A", "B", "C"], active := ("A", "B"), bench := "C",
          streaks := fun n => if n = "A" then 2 else 0, history := [],
          stats := fun n =>
            if n = "A" then ⟨2, 0, 2⟩ else ⟨0, 1, 0⟩,
          max_streak := 3 }
        "A" (3, 1) = .ok (snap, s') ∧
      s'.bench = "A" ∧ s'.streaks "A" = 0 ∧
      s'.active = ("C", "B") ∧ snap.forced_bench = true :=
  claim_C2_forced_rest _ "A" (3, 1) (by decide) (Or.inl rfl) (by decide)
    (by decide)

/-- C1 (code behaviour at the failing input): `record_match` called with the
bench player as `winner` raises nothing and silently corrupts the ledger: it
records a win for the bench player, puts the bench player on *both* court
slots, and benches a player who never played the match.  No
`InvalidParticipant` error exists in the source. -/
theorem claim_C1_code_behavior :
    ∃ s0, TennisRotation.init DEFAULT_PROFILES 3 = .ok s0 ∧
      ∃ snap s1,
        TennisRotation.record_match s0 "Player 3" (3, 0) = .ok (snap, s1) ∧
        s1.active = ("Player 3", "Player 3") ∧ s1.bench = "Player 2" ∧
        s1.streaks "Player 3" = 1 ∧ (s1.stats "Player 3").wins = 1 ∧
        snap.forced_bench = false :=
  ⟨_, rfl, _, _, rfl, by decide, by decide, by decide, by decide, by decide⟩

/-- C9 (counterexample): the constructor performs no validation.  A session
with four profiles and a streak threshold of 0 is accepted, and so is one
with three profiles and a negative threshold; no `InvalidConfiguration`
error exists in the source. -/
theorem claim_C9_counterexample :
    (∃ s, TennisRotation.init
        (DEFAULT_PROFILES ++ [{ name := "Player 4", color := "#FFFFFF" }]) 0
      = .ok s) ∧
    (∃ s, TennisRotation.init DEFAULT_PROFILES (-1) = .ok s) :=
  ⟨⟨_, rfl⟩, ⟨_, rfl⟩⟩

/-- C9 (amended): construction fails (with an `IndexError`, not an
`InvalidConfiguration`) exactly when fewer than three profiles are given;
the streak threshold is never checked. -/
theorem claim_C9_amended (profiles : List PlayerProfile) (ms : ℤ) :
    (∃ s, TennisRotation.init profiles ms = .ok s) ↔ 3 ≤ profiles.length := by
  rw [TennisRotation.init]
  by_cases h : 2 < (profiles.map PlayerProfile.name).length
  · rw [dif_pos h]
    rw [List.length_map] at h
    exact ⟨fun _ => by omega, fun _ => ⟨_, rfl⟩⟩
  · rw [dif_neg h]
    rw [List.length_map] at h
    constructor
    · rintro ⟨s, hs⟩
      exact absurd hs (by simp)
    · intro hlen
      omega

/-! ## The point simulator (`RotationVisualizer`)

The geometry fields are the ones `__init__` computes (lines 208-229) before
`_calc_dims` rescales them; every play function is parameterised over the
geometry, and `defaultGeo` holds the constructor values (scale 1).  The UI
widgets are not modelled: the only widget whose presence changes the consumed
randomness is the ball in the ace branch (lines 754-757), captured by the
`emit` flag of `play_point`. -/

/-- `Shot` (lines 71-78). -/
structure Shot where
  name : String
  target_x : ℚ
  target_y : ℚ
  speed : ℚ
  base_winner_chance : ℚ
  category : String
deriving Repr

/-- `SHOT_LIBRARY` (lines 81-96). -/
def SHOT_LIBRARY : List Shot :=
  [ ⟨"cross_court_fh", 4/5, 9/10, 4/5, 1/20, "baseline"⟩,
    ⟨"cross_court_bh", 1/5, 9/10, 4/5, 1/20, "baseline"⟩,
    ⟨"dtl_fh", 9/10, 19/20, 7/10, 2/25, "baseline"⟩,
    ⟨"dtl_bh", 1/10, 19/20, 7/10, 2/25, "baseline"⟩,
    ⟨"deep_baseline", 1/2, 49/50, 17/20, 1/50, "baseline"⟩,
    ⟨"wide_fh", 19/20, 4/5, 3/4, 3/25, "baseline"⟩,
    ⟨"wide_bh", 1/20, 4/5, 3/4, 3/25, "baseline"⟩,
    ⟨"drop_shot", 1/2, 3/10, 1, 3/20, "net"⟩,
    ⟨"volley_l", 3/10, 1/5, 2/5, 1/5, "net"⟩,
    ⟨"volley_r", 7/10, 1/5, 2/5, 1/5, "net"⟩,
    ⟨"approach", 1/2, 1/2, 3/5, 3/100, "approach"⟩,
    ⟨"lob", 1/2, 19/20, 11/10, 1/10, "baseline"⟩,
    ⟨"passing_l", 1/20, 17/20, 1/2, 1/4, "baseline"⟩,
    ⟨"passing_r", 19/20, 17/20, 1/2, 1/4, "baseline"⟩ ]

/-- `RESPONSES.get(cat, [])` (lines 98-102): the dict with its `.get`
default. -/
def RESPONSES (cat : String) : List String :=
  if cat = "net" then ["passing_l", "passing_r", "lob"]
  else if cat = "approach" then ["passing_l", "passing_r", "dtl_fh", "dtl_bh"]
  else []

/-- The court geometry derived in `__init__` (lines 208-229). -/
structure Geo where
  court_h : ℚ
  net_y : ℚ
  play_l : ℚ
  play_r : ℚ
  play_w : ℚ
  near_base : ℚ
  near_net : ℚ
  far_base : ℚ
  far_net : ℚ
  scale : ℚ

/-- The constructor's geometry: base court 300×400 at scale 1. -/
def defaultGeo : Geo :=
  { court_h := 400, net_y := 200, play_l := 49, play_r := 251, play_w := 202,
    near_base := 355, near_net := 235, far_base := 45, far_net := 165,
    scale := 1 }

/-- The `random` module as a stream of uniform draws in `[0,1)` with a read
position.  `random.random()` is `next`; `random.randint(0,1)` maps a draw `r`
to `if r < 1/2 then 0 else 1`; `random.choice(seq)` maps a draw `r` to
`seq[⌊r * len(seq)⌋]`. -/
structure Rng where
  stream : ℕ → ℚ
  idx : ℕ

def Rng.next (r : Rng) : ℚ × Rng := (r.stream r.idx, ⟨r.stream, r.idx + 1⟩)

/-- The `random.choice` model on a draw `r ∈ [0,1)`; `dflt` is returned only
for an out-of-range index, which cannot happen for draws in `[0,1)` on a
nonempty list. -/
def pyChoice {α : Type} (l : List α) (dflt : α) (r : ℚ) : α :=
  l.getD (Int.toNat ⌊r * l.length⌋) dflt

/-- The out-of-range default used for shot choices: one of the library's own
entries (`deep_baseline`). -/
def shotDefault : Shot := ⟨"deep_baseline", 1/2, 49/50, 17/20, 1/50, "baseline"⟩

/-- The per-player mutable simulation state owned by `RotationVisualizer`
(`_momentum`, `_fatigue`, `_positions`, `_prev_shot_cat`, lines 232-239)
together with the RNG position. -/
structure SimSt where
  rng : Rng
  momentum : String → ℚ
  fatigue : String → ℚ
  positions : String → ℚ × ℚ
  prevShotCat : String

/-- `_court_pos` (lines 284-290). -/
def court_pos (g : Geo) (side : String) (rx ry : ℚ) : ℚ × ℚ :=
  let x := g.play_l + rx * g.play_w
  if side = "near" then (x, g.near_base - ry * (g.near_base - g.near_net))
  else (x, g.far_base + ry * (g.far_net - g.far_base))

/-- `_ball_target` (lines 292-294). -/
def ball_target (g : Geo) (side : String) (shot : Shot) : ℚ × ℚ :=
  court_pos g (if side = "near" then "far" else "near") shot.target_x
    shot.target_y

/-- `_get_retrieve` (lines 885-892). -/
def get_retrieve (g : Geo) (side : String) (target : ℚ × ℚ)
    (prof : PlayerProfile) : ℚ × ℚ :=
  let tx := max g.play_l (min g.play_r target.1)
  let speed_bonus := prof.speed * 10 * g.scale
  if side = "near" then
    (tx, if g.net_y + 80 * g.scale < target.2 then g.near_base
         else max g.near_net (target.2 + 30 * g.scale - speed_bonus))
  else
    (tx, if target.2 < g.net_y - 80 * g.scale then g.far_base
         else min g.far_net (target.2 - 30 * g.scale + speed_bonus))

/-- `_get_recovery` (lines 894-901). -/
def get_recovery (g : Geo) (side : String) (shot : Shot) : ℚ × ℚ :=
  let cx := g.play_l + g.play_w * (1/2)
  let rx := if 1/2 < shot.target_x then cx - 15 * g.scale
            else cx + 15 * g.scale
  if side = "near" then
    (rx, if shot.category = "approach" ∨ shot.category = "net" then
           g.near_net + 15 * g.scale
         else g.near_base - 8 * g.scale)
  else
    (rx, if shot.category = "approach" ∨ shot.category = "net" then
           g.far_net - 15 * g.scale
         else g.far_base + 8 * g.scale)

/-- Python's substring test `pat in s`, on the character lists. -/
def charsLead : List Char → List Char → Bool
  | [], _ => true
  | _ :: _, [] => false
  | p :: ps, c :: cs => p == c && charsLead ps cs

def charsSub (pat : List Char) : List Char → Bool
  | [] => charsLead pat []
  | c :: cs => charsLead pat (c :: cs) || charsSub pat cs

def strHasSub (s pat : String) : Bool := charsSub pat.toList s.toList

/-- `_skill_for_shot` (lines 839-846). -/
def skill_for_shot (prof : PlayerProfile) (shot : Shot) : ℚ :=
  if strHasSub shot.name "fh" || strHasSub shot.name "forehand" then
    prof.forehand * (3/10)
  else if strHasSub shot.name "bh" || strHasSub shot.name "backhand" then
    prof.backhand * (3/10)
  else if shot.category = "net" then prof.net_game * (2/5)
  else (prof.forehand + prof.backhand) / 2 * (1/5)

/-- `_choose_smart_shot` (lines 848-883).  Draws are consumed in exactly the
source's order, including the short-circuit evaluation of `and`: a stage's
`random.random()` is only drawn when the guard before it holds. -/
def choose_smart_shot (g : Geo) (side : String) (pos : ℚ × ℚ)
    (prof : PlayerProfile) (prevCat : String) (rng : Rng) : Shot × Rng :=
  let responses := RESPONSES prevCat
  let stage1 : Option Shot × Rng :=
    if responses.isEmpty then (none, rng)
    else
      let (r, rng1) := rng.next
      if r < 1/2 then
        let matching := SHOT_LIBRARY.filter (fun s => decide (s.name ∈ responses))
        if matching.isEmpty then (none, rng1)
        else
          let (rc, rng2) := rng1.next
          (some (pyChoice matching shotDefault rc), rng2)
      else (none, rng1)
  match stage1 with
  | (some s, rng') => (s, rng')
  | (none, rngA) =>
    let relY := pos.2 / g.court_h
    let atNet : Prop := (side = "near" ∧ relY < 3/5) ∨
      (side = "far" ∧ 2/5 < relY)
    let stage2 : Option Shot × Rng :=
      if atNet ∧ 2/5 < prof.net_game then
        let net_shots := SHOT_LIBRARY.filter (fun s => decide (s.category = "net"))
        if net_shots.isEmpty then (none, rngA)
        else
          let (r, rng2) := rngA.next
          if r < 2/5 + prof.net_game * (3/10) then
            let (rc, rng3) := rng2.next
            (some (pyChoice net_shots shotDefault rc), rng3)
          else (none, rng2)
      else (none, rngA)
    match stage2 with
    | (some s, rng') => (s, rng')
    | (none, rngB) =>
      let mid_court : Prop := (side = "near" ∧ 2/5 < relY ∧ relY < 13/20) ∨
        (side = "far" ∧ 7/20 < relY ∧ relY < 3/5)
      let stage3 : Option Shot × Rng :=
        if mid_court then
          let (r, rng2) := rngB.next
          if r < 1/5 then
            let approaches :=
              SHOT_LIBRARY.filter (fun s => decide (s.category = "approach"))
            if approaches.isEmpty then (none, rng2)
            else
              let (rc, rng3) := rng2.next
              (some (pyChoice approaches shotDefault rc), rng3)
          else (none, rng2)
        else (none, rngB)
      match stage3 with
      | (some s, rng') => (s, rng')
      | (none, rngC) =>
        let relX := if 0 < g.play_w then (pos.1 - g.play_l) / g.play_w
                    else 1/2
        let stage4 : Option Shot × Rng :=
          if relX < 3/10 then
            let preferred := SHOT_LIBRARY.filter
              (fun s => decide ((3:ℚ)/5 < s.target_x) && decide (s.category = "baseline"))
            if preferred.isEmpty then (none, rngC)
            else
              let (r, rng2) := rngC.next
              if r < 1/2 then
                let (rc, rng3) := rng2.next
                (some (pyChoice preferred shotDefault rc), rng3)
              else (none, rng2)
          else if 7/10 < relX then
            let preferred := SHOT_LIBRARY.filter
              (fun s => decide (s.target_x < (2:ℚ)/5) && decide (s.category = "baseline"))
            if preferred.isEmpty then (none, rngC)
            else
              let (r, rng2) := rngC.next
              if r < 1/2 then
                let (rc, rng3) := rng2.next
                (some (pyChoice preferred shotDefault rc), rng3)
              else (none, rng2)
          else (none, rngC)
        match stage4 with
        | (some s, rng') => (s, rng')
        | (none, rngD) =>
          let baseline := SHOT_LIBRARY.filter (fun s => decide (s.category = "baseline"))
          let (rc, rng') := rngD.next
          if baseline.isEmpty then (pyChoice SHOT_LIBRARY shotDefault rc, rng')
          else (pyChoice baseline shotDefault rc, rng')

/-- The rally loop of `_play_point` (lines 764-837): `fuel` is the number of
remaining iterations of `for rally_i in range(max_rally)` and `i` the current
value of `rally_i`; the `fuel = 0` case is the safety fallback after the loop
(line 837).  The comparison `dist > max_reach` on the `math.sqrt` distance is
modelled by comparing squares, equivalent since both sides are nonnegative
for the nonnegative speeds and scales in use. -/
def rally (g : Geo) (profs : String → PlayerProfile)
    (active : String × String) (sides : String → String) :
    ℕ → ℕ → String → String → SimSt → String × SimSt
  | 0, _, _, _, st =>
    let (r, rng') := st.rng.next
    (pyChoice [active.1, active.2] active.1 r, { st with rng := rng' })
  | fuel + 1, i, cur, curSide, st =>
    let prof := profs cur
    let opponent := if cur = active.2 then active.1 else active.2
    let oppSide := sides opponent
    let oppProf := profs opponent
    let hPos := st.positions cur
    let (shot, rng1) := choose_smart_shot g curSide hPos prof st.prevShotCat st.rng
    let target := ball_target g curSide shot
    let retrieve := get_retrieve g oppSide target oppProf
    let recover := get_recovery g curSide shot
    let pos2 : String → ℚ × ℚ :=
      fun p => if p = cur then recover
               else if p = opponent then retrieve else st.positions p
    let fat1 : String → ℚ :=
      fun p => if p = cur then st.fatigue cur + (i + 1) / 100
               else st.fatigue p
    let fat2 : String → ℚ :=
      fun p => if p = opponent then fat1 opponent + (i + 1) / 100
               else fat1 p
    let skill_mult := skill_for_shot prof shot
    let mom_bonus := (st.momentum cur - 1/2) * (3/20)
    let fat_penalty := st.fatigue cur * (1/20)
    let winner_chance :=
      shot.base_winner_chance * (1 + skill_mult + mom_bonus - fat_penalty)
    let (rwin, rng2) := rng1.next
    if rwin < winner_chance then
      (cur, { st with rng := rng2, positions := pos2, fatigue := fat2 })
    else
      let error_chance := 1/25 + (1 - oppProf.consistency) * (3/50) +
        st.fatigue opponent * (2/25)
      let (rerr, rng3) := rng2.next
      if rerr < error_chance then
        (cur, { st with rng := rng3, positions := pos2, fatigue := fat2 })
      else
        let distSq := (target.1 - (pos2 opponent).1) ^ 2 +
          (target.2 - (pos2 opponent).2) ^ 2
        let max_reach := (50 + oppProf.speed * 40) * g.scale
        if max_reach ^ 2 < distSq then
          let (rret, rng4) := rng3.next
          if rret < 3/10 then
            (cur, { st with rng := rng4, positions := pos2 })
          else
            rally g profs active sides fuel (i + 1) opponent oppSide
              { st with rng := rng4, positions := pos2,
                        prevShotCat := shot.category }
        else
          rally g profs active sides fuel (i + 1) opponent oppSide
            { st with rng := rng3, positions := pos2,
                      prevShotCat := shot.category }

/-- `_play_point` (lines 728-837).  `emit` records whether a ball widget is
attached (`if self.ball:`): its only simulation-visible effect is the extra
`random.choice([0.2, 0.8])` draw of the ace animation (line 755); every other
widget update writes no state the simulation reads. -/
def play_point (g : Geo) (profs : String → PlayerProfile)
    (active : String × String) (sides : String → String) (emit : Bool)
    (st : SimSt) : String × SimSt :=
  let (d0, rng0) := st.rng.next
  let server_idx : ℕ := if d0 < 1/2 then 0 else 1
  let server := if server_idx = 0 then active.1 else active.2
  let receiver := if server_idx = 0 then active.2 else active.1
  let s_side := sides server
  let r_side := sides receiver
  let serve_pos := court_pos g s_side (1/2) 0
  let recv_pos := court_pos g r_side (1/2) (1/10)
  let pos1 : String → ℚ × ℚ :=
    fun p => if p = receiver then recv_pos
             else if p = server then serve_pos else st.positions p
  let (d1, rng1) := rng0.next
  if d1 < (profs server).serve * (2/25) then
    if emit then
      let (_, rng2) := rng1.next
      (server, { st with rng := rng2, positions := pos1 })
    else
      (server, { st with rng := rng1, positions := pos1 })
  else
    rally g profs active sides 50 0 server s_side
      { st with rng := rng1, positions := pos1, prevShotCat := "serve" }

def POINTS_TO_WIN : ℕ := 3

/-- The scoring loop of `_play_match` (lines 693-703): play points until one
player reaches `POINTS_TO_WIN`, bumping the winner's score and applying the
clamped momentum updates after each point.  The Python `while` loop is
unbounded; the model gives it `2 * POINTS_TO_WIN` iterations of fuel and
`claim_C5_match_terminates` proves the guard always exits before the fuel
does, so the cap never binds. -/
def play_match_points (g : Geo) (profs : String → PlayerProfile)
    (active : String × String) (sides : String → String) (emit : Bool) :
    ℕ → ℕ × ℕ → SimSt → (ℕ × ℕ) × SimSt
  | 0, sc, st => (sc, st)
  | fuel + 1, sc, st =>
    if max sc.1 sc.2 < POINTS_TO_WIN then
      let (w, st1) := play_point g profs active sides emit st
      let lsr := if w = active.2 then active.1 else active.2
      let mom1 : String → ℚ :=
        fun p => if p = w then min 1 (st1.momentum w + 1/10)
                 else st1.momentum p
      let mom2 : String → ℚ :=
        fun p => if p = lsr then max 0 (mom1 lsr - 1/20) else mom1 p
      let sc' := if w = active.1 then (sc.1 + 1, sc.2) else (sc.1, sc.2 + 1)
      play_match_points g profs active sides emit fuel sc'
        { st1 with momentum := mom2 }
    else (sc, st)

/-- The post-match fatigue adjustments of `_play_match` (lines 715-717):
the new bench player recovers by 0.3 (floored at 0), then each player of the
new active pair, in tuple order, tires by 0.05 (capped at 1). -/
def match_fatigue_adjust (snap : MatchSnapshot) (fat : String → ℚ) :
    String → ℚ :=
  let fat1 : String → ℚ :=
    fun p => if p = snap.bench_after then
               max 0 (fat snap.bench_after - 3/10)
             else fat p
  let fat2 : String → ℚ :=
    fun p => if p = snap.active_after.1 then
               min 1 (fat1 snap.active_after.1 + 1/20)
             else fat1 p
  fun p => if p = snap.active_after.2 then
             min 1 (fat2 snap.active_after.2 + 1/20)
           else fat2 p

/-- `_play_match` (lines 682-726) without the pure-UI work: the scoring loop,
the winner/loser/score extraction (lines 705-708), the ledger call (line 712)
and the post-match fatigue adjustments (lines 715-717). -/
def play_match (g : Geo) (profs : String → PlayerProfile)
    (sides : String → String) (emit : Bool) (rot : TennisRotation)
    (st : SimSt) :
    Except RotationError (MatchSnapshot × TennisRotation × SimSt) :=
  let active := rot.active
  let r := play_match_points g profs active sides emit (2 * POINTS_TO_WIN)
    (0, 0) st
  let sc := r.1
  let st1 := r.2
  let match_winner := if POINTS_TO_WIN ≤ sc.1 then active.1 else active.2
  let w_score := if match_winner = active.1 then sc.1 else sc.2
  let l_score :=
    if (if match_winner = active.2 then active.1 else active.2) = active.1
    then sc.1 else sc.2
  (TennisRotation.record_match rot match_winner (w_score, l_score)).map
    (fun sr =>
      (sr.1, sr.2,
        { st1 with fatigue := match_fatigue_adjust sr.1 st1.fatigue }))

/-- Every iteration of the scoring loop bumps exactly one of the two scores
while the loop guard holds, so within `2 * POINTS_TO_WIN` iterations the
guard fails with the winner exactly at `POINTS_TO_WIN` and the other player
strictly below it. -/
theorem play_match_points_spec (g : Geo) (profs : String → PlayerProfile)
    (active : String × String) (sides : String → String) (emit : Bool) :
    ∀ fuel (sc : ℕ × ℕ) (st : SimSt),
      sc.1 ≤ POINTS_TO_WIN → sc.2 ≤ POINTS_TO_WIN →
      ¬(sc.1 = POINTS_TO_WIN ∧ sc.2 = POINTS_TO_WIN) →
      2 * POINTS_TO_WIN ≤ fuel + sc.1 + sc.2 →
      max (play_match_points g profs active sides emit fuel sc st).1.1
          (play_match_points g profs active sides emit fuel sc st).1.2
        = POINTS_TO_WIN ∧
      min (play_match_points g profs active sides emit fuel sc st).1.1
          (play_match_points g profs active sides emit fuel sc st).1.2
        < POINTS_TO_WIN := by
  intro fuel
  induction fuel with
  | zero =>
    intro sc st h1 h2 h3 h4
    rw [POINTS_TO_WIN] at h1 h2 h4
    refine absurd ⟨?_, ?_⟩ h3 <;> rw [POINTS_TO_WIN] <;> omega
  | succ fuel ih =>
    intro sc st h1 h2 h3 h4
    rw [POINTS_TO_WIN] at h1 h2 h4
    have h3' : ¬(sc.1 = 3 ∧ sc.2 = 3) := by
      intro hc
      exact h3 ⟨by rw [POINTS_TO_WIN]; omega, by rw [POINTS_TO_WIN]; omega⟩
    rw [play_match_points]
    by_cases hg : max sc.1 sc.2 < POINTS_TO_WIN
    · rw [if_pos hg]
      rw [POINTS_TO_WIN] at hg
      have hlt1 : sc.1 < 3 := lt_of_le_of_lt (le_max_left _ _) hg
      have hlt2 : sc.2 < 3 := lt_of_le_of_lt (le_max_right _ _) hg
      rcases hps : play_point g profs active sides emit st with ⟨w, st1⟩
      dsimp only
      by_cases hw : w = active.1
      · rw [if_pos hw]
        exact ih (sc.1 + 1, sc.2) _ (by rw [POINTS_TO_WIN]; omega)
          (by rw [POINTS_TO_WIN]; omega)
          (fun hc => by rw [POINTS_TO_WIN] at hc; omega)
          (by rw [POINTS_TO_WIN]; omega)
      · rw [if_neg hw]
        exact ih (sc.1, sc.2 + 1) _ (by rw [POINTS_TO_WIN]; omega)
          (by rw [POINTS_TO_WIN]; omega)
          (fun hc => by rw [POINTS_TO_WIN] at hc; omega)
          (by rw [POINTS_TO_WIN]; omega)
    · rw [if_neg hg]
      dsimp only
      rw [POINTS_TO_WIN] at hg ⊢
      by_cases hc : sc.1 = 3
      · have h23 : sc.2 ≠ 3 := fun hh => h3' ⟨hc, hh⟩
        rw [Nat.max_def, Nat.min_def]
        split_ifs <;> omega
      · by_cases hd : sc.2 = 3
        · rw [Nat.max_def, Nat.min_def]
          split_ifs <;> omega
        · exfalso
          rw [Nat.max_def] at hg
          split_ifs at hg <;> omega

/-- C5: the match loop always terminates with a final score whose maximum is
exactly `POINTS_TO_WIN` (3) and whose minimum is strictly below it, and the
player selected as match winner (line 705) holds exactly `POINTS_TO_WIN`
points.  Per-point termination is structural in the model: the rally loop of
`_play_point` is a `for` loop over `range(50)` (line 769) with the
random-winner fallback after it (line 837), embedded as fuel-bounded
recursion, so every point ends within the 50-exchange cap for every RNG
stream. -/
theorem claim_C5_match_terminates (g : Geo) (profs : String → PlayerProfile)
    (active : String × String) (sides : String → String) (emit : Bool)
    (st : SimSt) :
    max (play_match_points g profs active sides emit (2 * POINTS_TO_WIN)
          (0, 0) st).1.1
        (play_match_points g profs active sides emit (2 * POINTS_TO_WIN)
          (0, 0) st).1.2 = POINTS_TO_WIN ∧
    min (play_match_points g profs active sides emit (2 * POINTS_TO_WIN)
          (0, 0) st).1.1
        (play_match_points g profs active sides emit (2 * POINTS_TO_WIN)
          (0, 0) st).1.2 < POINTS_TO_WIN ∧
    (if POINTS_TO_WIN ≤ (play_match_points g profs active sides emit
          (2 * POINTS_TO_WIN) (0, 0) st).1.1 then
        (play_match_points g profs active sides emit (2 * POINTS_TO_WIN)
          (0, 0) st).1.1
      else
        (play_match_points g profs active sides emit (2 * POINTS_TO_WIN)
          (0, 0) st).1.2) = POINTS_TO_WIN := by
  obtain ⟨hmax, hmin⟩ := play_match_points_spec g profs active sides emit
    (2 * POINTS_TO_WIN) (0, 0) st (by omega) (by omega)
    (fun hc => by rw [POINTS_TO_WIN] at hc; omega) (by omega)
  refine ⟨hmax, hmin, ?_⟩
  rcases le_or_lt POINTS_TO_WIN
      (play_match_points g profs active sides emit (2 * POINTS_TO_WIN)
        (0, 0) st).1.1 with h | h
  · rw [if_pos h]
    rw [Nat.max_def] at hmax
    split_ifs at hmax <;> omega
  · rw [if_neg (not_le_of_lt h)]
    rw [Nat.max_def] at hmax
    split_ifs at hmax <;> omega

/-- C8: the point winner does not depend on whether presentation events are
emitted.  The only presentation-guarded statement that touches the RNG is the
ace animation's `random.choice([0.2, 0.8])` (line 755), and it runs after the
point winner (the server) is already determined; the rally loop consumes the
same draws in the same order either way. -/
theorem claim_C8_presentation_independent (g : Geo)
    (profs : String → PlayerProfile) (active : String × String)
    (sides : String → String) (st : SimSt) :
    (play_point g profs active sides true st).1 =
    (play_point g profs active sides false st).1 := by
  rw [play_point, play_point]
  simp only [Rng.next]
  by_cases hace :
    st.rng.stream (st.rng.idx + 1) <
      (profs (if (if st.rng.stream st.rng.idx < 1/2 then (0:ℕ) else 1) = 0
        then active.1 else active.2)).serve * (2/25)
  · rw [if_pos hace, if_pos hace]
    rfl
  · rw [if_neg hace, if_neg hace]

/-- Inside the rally loop, fatigue is mutated only when the point concludes
by a clean winner or an unforced error (lines 802-803 and 815-816): both
active players then gain exactly `0.01 * (rally_i + 1)`.  The failed-retrieve
return (line 827) and the rally-cap fallback (line 837) leave fatigue
untouched; momentum and the fatigue of non-active players are never written
by the rally loop at all. -/
theorem rally_effects (g : Geo) (profs : String → PlayerProfile)
    (a b : String) (sides : String → String) (hab : a ≠ b) :
    ∀ fuel i cur curSide st, cur = a ∨ cur = b →
      (rally g profs (a, b) sides fuel i cur curSide st).2.momentum
        = st.momentum ∧
      (∀ p, p ≠ a → p ≠ b →
        (rally g profs (a, b) sides fuel i cur curSide st).2.fatigue p
          = st.fatigue p) ∧
      (((rally g profs (a, b) sides fuel i cur curSide st).2.fatigue a
          = st.fatigue a ∧
        (rally g profs (a, b) sides fuel i cur curSide st).2.fatigue b
          = st.fatigue b) ∨
       (∃ k : ℕ, i < k ∧ k ≤ i + fuel ∧
         (rally g profs (a, b) sides fuel i cur curSide st).2.fatigue a
           = st.fatigue a + k / 100 ∧
         (rally g profs (a, b) sides fuel i cur curSide st).2.fatigue b
           = st.fatigue b + k / 100)) := by
  intro fuel
  induction fuel with
  | zero =>
    intro i cur curSide st hcur
    exact ⟨rfl, fun p _ _ => rfl, Or.inl ⟨rfl, rfl⟩⟩
  | succ fuel ih =>
    intro i cur curSide st hcur
    rw [rally]
    rcases hcs : choose_smart_shot g curSide (st.positions cur) (profs cur)
        st.prevShotCat st.rng with ⟨shot, rng1⟩
    dsimp only
    have hcast : ((i : ℚ) + 1) / 100 = ((i + 1 : ℕ) : ℚ) / 100 := by
      push_cast
      ring
    rcases hcur with rfl | rfl
    · -- the hitter is `a`; the opponent expression reduces to `b`
      simp only [if_neg hab, if_neg (Ne.symm hab), eq_self_iff_true, if_true]
      split_ifs with hwin herr hdist hret
      · refine ⟨rfl, fun p hpa hpb => by simp [if_neg hpa, if_neg hpb], ?_⟩
        right
        refine ⟨i + 1, by omega, by omega, ?_, ?_⟩ <;>
          simp [if_neg hab, if_neg (Ne.symm hab), hcast]
      · refine ⟨rfl, fun p hpa hpb => by simp [if_neg hpa, if_neg hpb], ?_⟩
        right
        refine ⟨i + 1, by omega, by omega, ?_, ?_⟩ <;>
          simp [if_neg hab, if_neg (Ne.symm hab), hcast]
      · exact ⟨rfl, fun p _ _ => rfl, Or.inl ⟨rfl, rfl⟩⟩
      · obtain ⟨hm, ho, hd⟩ := ih (i + 1) b (sides b) _ (Or.inr rfl)
        refine ⟨hm, fun p hpa hpb => ho p hpa hpb, ?_⟩
        rcases hd with ⟨h1, h2⟩ | ⟨k, hk1, hk2, h3, h4⟩
        · exact Or.inl ⟨h1, h2⟩
        · exact Or.inr ⟨k, by omega, by omega, h3, h4⟩
      · obtain ⟨hm, ho, hd⟩ := ih (i + 1) b (sides b) _ (Or.inr rfl)
        refine ⟨hm, fun p hpa hpb => ho p hpa hpb, ?_⟩
        rcases hd with ⟨h1, h2⟩ | ⟨k, hk1, hk2, h3, h4⟩
        · exact Or.inl ⟨h1, h2⟩
        · exact Or.inr ⟨k, by omega, by omega, h3, h4⟩
    · -- the hitter is `b`; the opponent expression reduces to `a`
      simp only [if_neg hab, if_neg (Ne.symm hab), eq_self_iff_true, if_true]
      split_ifs with hwin herr hdist hret
      · refine ⟨rfl, fun p hpa hpb => by simp [if_neg hpa, if_neg hpb], ?_⟩
        right
        refine ⟨i + 1, by omega, by omega, ?_, ?_⟩ <;>
          simp [if_neg hab, if_neg (Ne.symm hab), hcast]
      · refine ⟨rfl, fun p hpa hpb => by simp [if_neg hpa, if_neg hpb], ?_⟩
        right
        refine ⟨i + 1, by omega, by omega, ?_, ?_⟩ <;>
          simp [if_neg hab, if_neg (Ne.symm hab), hcast]
      · exact ⟨rfl, fun p _ _ => rfl, Or.inl ⟨rfl, rfl⟩⟩
      · obtain ⟨hm, ho, hd⟩ := ih (i + 1) a (sides a) _ (Or.inl rfl)
        refine ⟨hm, fun p hpa hpb => ho p hpa hpb, ?_⟩
        rcases hd with ⟨h1, h2⟩ | ⟨k, hk1, hk2, h3, h4⟩
        · exact Or.inl ⟨h1, h2⟩
        · exact Or.inr ⟨k, by omega, by omega, h3, h4⟩
      · obtain ⟨hm, ho, hd⟩ := ih (i + 1) a (sides a) _ (Or.inl rfl)
        refine ⟨hm, fun p hpa hpb => ho p hpa hpb, ?_⟩
        rcases hd with ⟨h1, h2⟩ | ⟨k, hk1, hk2, h3, h4⟩
        · exact Or.inl ⟨h1, h2⟩
        · exact Or.inr ⟨k, by omega, by omega, h3, h4⟩

/-- `play_point` never writes momentum, never touches a non-active player's
fatigue, and changes the two active players' fatigue as `rally_effects`
describes: either not at all, or by `0.01 * rallyLength` for both. -/
theorem play_point_effects (g : Geo) (profs : String → PlayerProfile)
    (a b : String) (sides : String → String) (emit : Bool) (st : SimSt)
    (hab : a ≠ b) :
    (play_point g profs (a, b) sides emit st).2.momentum = st.momentum ∧
    (∀ p, p ≠ a → p ≠ b →
      (play_point g profs (a, b) sides emit st).2.fatigue p
        = st.fatigue p) ∧
    (((play_point g profs (a, b) sides emit st).2.fatigue a = st.fatigue a ∧
      (play_point g profs (a, b) sides emit st).2.fatigue b = st.fatigue b) ∨
     (∃ k : ℕ, 1 ≤ k ∧ k ≤ 50 ∧
       (play_point g profs (a, b) sides emit st).2.fatigue a
         = st.fatigue a + k / 100 ∧
       (play_point g profs (a, b) sides emit st).2.fatigue b
         = st.fatigue b + k / 100)) := by
  simp only [play_point, Rng.next]
  by_cases hd0 : st.rng.stream st.rng.idx < 1/2
  · simp only [if_pos hd0, eq_self_iff_true, if_true]
    split_ifs with hace hem
    · exact ⟨rfl, fun p _ _ => rfl, Or.inl ⟨rfl, rfl⟩⟩
    · exact ⟨rfl, fun p _ _ => rfl, Or.inl ⟨rfl, rfl⟩⟩
    · exact rally_effects g profs a b sides hab 50 0 a (sides a) _
        (Or.inl rfl)
  · simp only [if_neg hd0, if_neg (by norm_num : ¬(1:ℕ) = 0)]
    split_ifs with hace hem
    · exact ⟨rfl, fun p _ _ => rfl, Or.inl ⟨rfl, rfl⟩⟩
    · exact ⟨rfl, fun p _ _ => rfl, Or.inl ⟨rfl, rfl⟩⟩
    · exact rally_effects g profs a b sides hab 50 0 b (sides b) _
        (Or.inr rfl)

/-- C7 (amended): over a whole point, both active players' fatigue either
stays exactly unchanged (ace, failed retrieval, rally-cap fallback) or both
rise by exactly `0.01 * rallyLength` for the same rally length
`1 ≤ rallyLength ≤ 50` (clean winner, unforced error). -/
theorem claim_C7_amended (g : Geo) (profs : String → PlayerProfile)
    (a b : String) (sides : String → String) (emit : Bool) (st : SimSt)
    (hab : a ≠ b) :
    ((play_point g profs (a, b) sides emit st).2.fatigue a = st.fatigue a ∧
     (play_point g profs (a, b) sides emit st).2.fatigue b = st.fatigue b) ∨
    (∃ k : ℕ, 1 ≤ k ∧ k ≤ 50 ∧
      (play_point g profs (a, b) sides emit st).2.fatigue a
        = st.fatigue a + k / 100 ∧
      (play_point g profs (a, b) sides emit st).2.fatigue b
        = st.fatigue b + k / 100) :=
  (play_point_effects g profs a b sides emit st hab).2.2

theorem claim_C7_amended_witness :
    ((play_point defaultGeo
        (fun _ => { name := "X", color := "#000000" })
        ("A", "B") (fun _ => "near") false
        ⟨⟨fun _ => 0, 0⟩, fun _ => 1/2, fun _ => 0, fun _ => (0, 0),
          "baseline"⟩).2.fatigue "A"
        = (⟨⟨fun _ => 0, 0⟩, fun _ => 1/2, fun _ => 0, fun _ => (0, 0),
          "baseline"⟩ : SimSt).fatigue "A" ∧
     (play_point defaultGeo
        (fun _ => { name := "X", color := "#000000" })
        ("A", "B") (fun _ => "near") false
        ⟨⟨fun _ => 0, 0⟩, fun _ => 1/2, fun _ => 0, fun _ => (0, 0),
          "baseline"⟩).2.fatigue "B"
        = (⟨⟨fun _ => 0, 0⟩, fun _ => 1/2, fun _ => 0, fun _ => (0, 0),
          "baseline"⟩ : SimSt).fatigue "B") ∨
    (∃ k : ℕ, 1 ≤ k ∧ k ≤ 50 ∧
      (play_point defaultGeo
        (fun _ => { name := "X", color := "#000000" })
        ("A", "B") (fun _ => "near") false
        ⟨⟨fun _ => 0, 0⟩, fun _ => 1/2, fun _ => 0, fun _ => (0, 0),
          "baseline"⟩).2.fatigue "A"
        = (⟨⟨fun _ => 0, 0⟩, fun _ => 1/2, fun _ => 0, fun _ => (0, 0),
          "baseline"⟩ : SimSt).fatigue "A" + k / 100 ∧
      (play_point defaultGeo
        (fun _ => { name := "X", color := "#000000" })
        ("A", "B") (fun _ => "near") false
        ⟨⟨fun _ => 0, 0⟩, fun _ => 1/2, fun _ => 0, fun _ => (0, 0),
          "baseline"⟩).2.fatigue "B"
        = (⟨⟨fun _ => 0, 0⟩, fun _ => 1/2, fun _ => 0, fun _ => (0, 0),
          "baseline"⟩ : SimSt).fatigue "B" + k / 100) :=
  claim_C7_amended defaultGeo (fun _ => { name := "X", color := "#000000" })
    "A" "B" (fun _ => "near") false _ (by decide)

/-- The per-point momentum update keeps every momentum in `[0,1]`. -/
theorem clamp_step_bounds (m : String → ℚ) (w lsr : String)
    (hm : ∀ p, 0 ≤ m p ∧ m p ≤ 1) :
    ∀ p, 0 ≤ (fun q => if q = lsr then
          max 0 ((if lsr = w then min 1 (m w + 1/10) else m lsr) - 1/20)
        else if q = w then min 1 (m w + 1/10) else m q) p ∧
      (fun q => if q = lsr then
          max 0 ((if lsr = w then min 1 (m w + 1/10) else m lsr) - 1/20)
        else if q = w then min 1 (m w + 1/10) else m q) p ≤ 1 := by
  intro p
  by_cases hp : p = lsr
  · simp only [if_pos hp]
    refine ⟨le_max_left _ _, max_le (by norm_num) ?_⟩
    by_cases hl : lsr = w
    · rw [if_pos hl]
      have := min_le_left (1 : ℚ) (m w + 1/10)
      linarith
    · rw [if_neg hl]
      have := (hm lsr).2
      linarith
  · simp only [if_neg hp]
    by_cases hpw : p = w
    · simp only [if_pos hpw]
      refine ⟨le_min (by norm_num) ?_, min_le_left _ _⟩
      have := (hm w).1
      linarith
    · simp only [if_neg hpw]
      exact hm p

/-- The scoring loop keeps momentum in `[0,1]` and fatigue nonnegative. -/
theorem play_match_points_bounds (g : Geo) (profs : String → PlayerProfile)
    (a b : String) (sides : String → String) (emit : Bool) (hab : a ≠ b) :
    ∀ fuel (sc : ℕ × ℕ) (st : SimSt),
      (∀ p, 0 ≤ st.momentum p ∧ st.momentum p ≤ 1) →
      (∀ p, 0 ≤ st.fatigue p) →
      (∀ p, 0 ≤ (play_match_points g profs (a, b) sides emit fuel sc
            st).2.momentum p ∧
        (play_match_points g profs (a, b) sides emit fuel sc
            st).2.momentum p ≤ 1) ∧
      (∀ p, 0 ≤ (play_match_points g profs (a, b) sides emit fuel sc
            st).2.fatigue p) := by
  intro fuel
  induction fuel with
  | zero =>
    intro sc st hm hf
    exact ⟨hm, hf⟩
  | succ fuel ih =>
    intro sc st hm hf
    rw [play_match_points]
    by_cases hg : max sc.1 sc.2 < POINTS_TO_WIN
    · rw [if_pos hg]
      rcases hps : play_point g profs (a, b) sides emit st with ⟨w, st1⟩
      dsimp only
      obtain ⟨hmom1, hoff, hdisj⟩ :=
        play_point_effects g profs a b sides emit st hab
      rw [hps] at hmom1 hoff hdisj
      have hf1 : ∀ p, 0 ≤ st1.fatigue p := by
        intro p
        by_cases hpa : p = a
        · rcases hdisj with ⟨h1, -⟩ | ⟨k, -, -, h1, -⟩
          · rw [hpa, h1]
            exact hf a
          · rw [hpa, h1]
            have : (0:ℚ) ≤ (k : ℚ) / 100 := by positivity
            linarith [hf a]
        · by_cases hpb : p = b
          · rcases hdisj with ⟨-, h2⟩ | ⟨k, -, -, -, h2⟩
            · rw [hpb, h2]
              exact hf b
            · rw [hpb, h2]
              have : (0:ℚ) ≤ (k : ℚ) / 100 := by positivity
              linarith [hf b]
          · rw [hoff p hpa hpb]
            exact hf p
      exact ih _ _
        (by rw [hmom1]; exact clamp_step_bounds st.momentum w _ hm) hf1
    · rw [if_neg hg]
      exact ⟨hm, hf⟩

/-- The post-match fatigue adjustments keep fatigue nonnegative. -/
theorem match_fatigue_adjust_nonneg (snap : MatchSnapshot)
    (fat : String → ℚ) (hf : ∀ p, 0 ≤ fat p) :
    ∀ p, 0 ≤ match_fatigue_adjust snap fat p := by
  intro p
  rw [match_fatigue_adjust]
  have h1 : ∀ q, (0:ℚ) ≤ if q = snap.bench_after then
      max 0 (fat snap.bench_after - 3/10) else fat q := by
    intro q
    by_cases hq : q = snap.bench_after
    · rw [if_pos hq]
      exact le_max_left _ _
    · rw [if_neg hq]
      exact hf q
  have h2 : ∀ q, (0:ℚ) ≤ if q = snap.active_after.1 then
      min 1 ((if snap.active_after.1 = snap.bench_after then
        max 0 (fat snap.bench_after - 3/10) else fat snap.active_after.1)
          + 1/20)
      else if q = snap.bench_after then max 0 (fat snap.bench_after - 3/10)
      else fat q := by
    intro q
    by_cases hq : q = snap.active_after.1
    · rw [if_pos hq]
      refine le_min (by norm_num) ?_
      have := h1 snap.active_after.1
      linarith
    · rw [if_neg hq]
      exact h1 q
  by_cases hq : p = snap.active_after.2
  · simp only [if_pos hq]
    refine le_min (by norm_num) ?_
    have := h2 snap.active_after.2
    linarith
  · simp only [if_neg hq]
    exact h2 p

theorem except_map_ok {ε β γ : Type} (f : β → γ) (x : Except ε β) (y : γ)
    (h : x.map f = .ok y) : ∃ v, x = .ok v ∧ y = f v := by
  cases x with
  | error e => simp [Except.map] at h
  | ok v =>
    simp [Except.map] at h
    exact ⟨v, rfl, h.symm⟩

/-- C6 (amended): momentum is clamped into `[0,1]` at every update (lines
700-701) and stays there after arbitrarily many points and matches, and
fatigue never becomes negative; but the point-level fatigue increments
(lines 802-803, 815-816) are *unclamped*, so fatigue is only guaranteed
`≥ 0`, not `≤ 1` — `claim_C6_counterexample` exhibits a run driving it to
`3/2`.  Stated as preservation over one full match (the scoring loop and the
complete `_play_match` step), which iterates to arbitrarily many matches. -/
theorem claim_C6_amended (g : Geo) (profs : String → PlayerProfile)
    (sides : String → String) (emit : Bool) (rot : TennisRotation)
    (st : SimSt) (hne : rot.active.1 ≠ rot.active.2)
    (hm : ∀ p, 0 ≤ st.momentum p ∧ st.momentum p ≤ 1)
    (hf : ∀ p, 0 ≤ st.fatigue p) :
    ((∀ p, 0 ≤ (play_match_points g profs rot.active sides emit
          (2 * POINTS_TO_WIN) (0, 0) st).2.momentum p ∧
        (play_match_points g profs rot.active sides emit
          (2 * POINTS_TO_WIN) (0, 0) st).2.momentum p ≤ 1) ∧
      (∀ p, 0 ≤ (play_match_points g profs rot.active sides emit
          (2 * POINTS_TO_WIN) (0, 0) st).2.fatigue p)) ∧
    (∀ snap rot' st',
      play_match g profs sides emit rot st = .ok (snap, rot', st') →
      (∀ p, 0 ≤ st'.momentum p ∧ st'.momentum p ≤ 1) ∧
      (∀ p, 0 ≤ st'.fatigue p)) := by
  have hbase := play_match_points_bounds g profs rot.active.1 rot.active.2
    sides emit hne (2 * POINTS_TO_WIN) (0, 0) st hm hf
  refine ⟨hbase, ?_⟩
  intro snap rot' st' h
  rw [play_match] at h
  obtain ⟨⟨sn, r'⟩, hrm, hy⟩ := except_map_ok _ _ _ h
  rw [Prod.mk.injEq, Prod.mk.injEq] at hy
  obtain ⟨he1, he2, he3⟩ := hy
  subst he3
  exact ⟨hbase.1, match_fatigue_adjust_nonneg sn _ hbase.2⟩

def demoSt : SimSt :=
  ⟨⟨fun _ => 0, 0⟩, fun _ => 1/2, fun _ => 0, fun _ => (0, 0), "baseline"⟩

def demoProfs : String → PlayerProfile :=
  fun _ => { name := "X", color := "#000000" }

theorem claim_C6_amended_witness :
    (∀ p, 0 ≤ (play_match_points defaultGeo demoProfs
          (initOk DEFAULT_PROFILES 3).active (fun _ => "near") false
          (2 * POINTS_TO_WIN) (0, 0) demoSt).2.momentum p ∧
        (play_match_points defaultGeo demoProfs
          (initOk DEFAULT_PROFILES 3).active (fun _ => "near") false
          (2 * POINTS_TO_WIN) (0, 0) demoSt).2.momentum p ≤ 1) ∧
    (∀ p, 0 ≤ (play_match_points defaultGeo demoProfs
          (initOk DEFAULT_PROFILES 3).active (fun _ => "near") false
          (2 * POINTS_TO_WIN) (0, 0) demoSt).2.fatigue p) :=
  (claim_C6_amended defaultGeo demoProfs (fun _ => "near") false
    (initOk DEFAULT_PROFILES 3) demoSt (by decide)
    (fun p => ⟨by norm_num [demoSt], by norm_num [demoSt]⟩)
    (fun p => by norm_num [demoSt])).1

/-! ### Concrete runs

The counterexamples for C6 and C7 drive the simulator with explicit RNG
streams through the default session: profiles `DEFAULT_PROFILES`, active pair
`("Player 1", "Player 2")` with `"Player 1"` on the near side (as
`_init_players` assigns), constructor geometry.  A draw of `999/1000` refuses
every Bernoulli event and makes every `random.choice` pick the last list
element; a draw of `0` fires the clean-winner check. -/

/-- The `self._profiles` dict (line 127) with `profile()` lookup (lines
156-157): later profiles with the same name would override earlier ones; a
missing name (a `KeyError` in Python, never reached for session names) maps
to a stub. -/
def profile_map (profiles : List PlayerProfile) (n : String) : PlayerProfile :=
  match (profiles.filter (fun p => decide (p.name = n))).getLast? with
  | some p => p
  | none => { name := n, color := "" }

def dProfs : String → PlayerProfile := profile_map DEFAULT_PROFILES

/-- The side dict `_init_players` builds (lines 916-937) for the initial
active pair. -/
def dSides : String → String :=
  fun n => if n = "Player 1" then "near" else "far"

/-- The stream behind the C6 counterexample: every 200th draw (index
`199 mod 200`) is 0 — the clean-winner draw of the 50th rally exchange of
each point — and every other draw is `999/1000`. -/
def exStream : ℕ → ℚ := fun j => if j % 200 = 199 then 0 else 999/1000

/-- The stream behind the C7 counterexample: every draw refuses its event,
so every point runs to the 50-exchange rally cap. -/
def constHigh : ℕ → ℚ := fun _ => 999/1000

/-- The shot every `random.choice` of the driven runs selects: `passing_r`,
the last baseline shot of the catalog. -/
def passingR : Shot := ⟨"passing_r", 19/20, 17/20, 1/2, 1/4, "baseline"⟩

theorem dProfs_P1 : dProfs "Player 1" =
    { name := "Player 1", color := "#4FC3F7", forehand := 7/10,
      backhand := 2/5, net_game := 3/10, consistency := 3/5, speed := 1/2,
      serve := 3/5 } := rfl

theorem dProfs_P2 : dProfs "Player 2" =
    { name := "Player 2", color := "#81C784", forehand := 1/2,
      backhand := 3/5, net_game := 7/10, consistency := 1/2, speed := 3/5,
      serve := 2/5 } := rfl

theorem dSides_P1 : dSides "Player 1" = "near" := rfl

theorem dSides_P2 : dSides "Player 2" = "far" := rfl

theorem skill_passing_r (prof : PlayerProfile) :
    skill_for_shot prof passingR =
      (prof.forehand + prof.backhand) / 2 * (1/5) := rfl

theorem exStream_high (j : ℕ) (h : j % 200 ≠ 199) :
    exStream j = 999/1000 := if_neg h

theorem exStream_zero (j : ℕ) (h : j % 200 = 199) : exStream j = 0 := if_pos h

theorem floor_ten (d : ℚ) (h1 : 9/10 ≤ d) (h2 : d < 1) :
    ⌊d * 10⌋ = (9:ℤ) := by
  rw [Int.floor_eq_iff]
  constructor
  · push_cast
    linarith
  · push_cast
    linarith

theorem floor_two (d : ℚ) (h1 : 1/2 ≤ d) (h2 : d < 1) :
    ⌊d * 2⌋ = (1:ℤ) := by
  rw [Int.floor_eq_iff]
  constructor
  · push_cast
    linarith
  · push_cast
    linarith

/-- Shot selection for a hitter on the near side at the stable cycle position
`(240.9, 278)` with a high preference draw and a last-element choice draw:
stages 1-3 consume nothing, the cross-court preference draw is refused, and
the baseline choice picks `passing_r`. -/
theorem choose_near_cycle (prof : PlayerProfile) (r : Rng)
    (h1 : 1/2 ≤ r.stream r.idx)
    (h2 : 9/10 ≤ r.stream (r.idx + 1)) (h3 : r.stream (r.idx + 1) < 1) :
    choose_smart_shot defaultGeo "near" (2409/10, 278) prof "baseline" r =
      (passingR, ⟨r.stream, r.idx + 2⟩) := by
  rw [choose_smart_shot]
  norm_num +decide [RESPONSES, defaultGeo, SHOT_LIBRARY, List.filter,
    List.isEmpty, pyChoice, Rng.next]
  rw [if_neg (not_lt.mpr h1)]
  dsimp only
  rw [floor_ten _ h2 h3]
  rfl

/-- Shot selection for a hitter on the far side at the stable cycle position
`(240.9, 123)`: same shape as `choose_near_cycle`. -/
theorem choose_far_cycle (prof : PlayerProfile) (r : Rng)
    (h1 : 1/2 ≤ r.stream r.idx)
    (h2 : 9/10 ≤ r.stream (r.idx + 1)) (h3 : r.stream (r.idx + 1) < 1) :
    choose_smart_shot defaultGeo "far" (2409/10, 123) prof "baseline" r =
      (passingR, ⟨r.stream, r.idx + 2⟩) := by
  rw [choose_smart_shot]
  norm_num +decide [RESPONSES, defaultGeo, SHOT_LIBRARY, List.filter,
    List.isEmpty, pyChoice, Rng.next]
  rw [if_neg (not_lt.mpr h1)]
  dsimp only
  rw [floor_ten _ h2 h3]
  rfl

/-- Shot selection for the server on the far side at the serve position
`(150, 45)` right after the serve (`prev = "serve"`): no stage draws at all,
one baseline choice draw picking `passing_r`. -/
theorem choose_far_serve (prof : PlayerProfile) (r : Rng)
    (h2 : 9/10 ≤ r.stream r.idx) (h3 : r.stream r.idx < 1) :
    choose_smart_shot defaultGeo "far" (150, 45) prof "serve" r =
      (passingR, ⟨r.stream, r.idx + 1⟩) := by
  rw [choose_smart_shot]
  norm_num +decide [RESPONSES, defaultGeo, SHOT_LIBRARY, List.filter,
    List.isEmpty, pyChoice, Rng.next]
  rw [floor_ten _ h2 h3]
  rfl

/-- One rally exchange at the stable cycle, hitter `"Player 1"` (near side),
with all three event draws refused: the rally continues with `"Player 2"`
hitting from the far cycle position, four draws consumed. -/
theorem iter_near_cont (n i : ℕ) (st : SimSt)
    (hp : st.positions "Player 1" = (2409/10, 278))
    (hprev : st.prevShotCat = "baseline")
    (hm1u : st.momentum "Player 1" ≤ 1)
    (hf1l : 0 ≤ st.fatigue "Player 1") (hf2u : st.fatigue "Player 2" ≤ 1)
    (hd1 : 1/2 ≤ st.rng.stream st.rng.idx)
    (hd2 : 9/10 ≤ st.rng.stream (st.rng.idx + 1))
    (hd2u : st.rng.stream (st.rng.idx + 1) < 1)
    (hd3 : 3/10 ≤ st.rng.stream (st.rng.idx + 2))
    (hd4 : 3/10 ≤ st.rng.stream (st.rng.idx + 3)) :
    ∃ st', rally defaultGeo dProfs ("Player 1", "Player 2") dSides (n + 1) i
        "Player 1" "near" st =
      rally defaultGeo dProfs ("Player 1", "Player 2") dSides n (i + 1)
        "Player 2" "far" st' ∧
      st'.rng.stream = st.rng.stream ∧ st'.rng.idx = st.rng.idx + 4 ∧
      st'.positions "Player 2" = (2409/10, 123) ∧
      st'.prevShotCat = "baseline" ∧
      st'.fatigue = st.fatigue ∧ st'.momentum = st.momentum := by
  rw [rally]
  dsimp only
  rw [hp, hprev, choose_near_cycle (dProfs "Player 1") st.rng hd1 hd2 hd2u]
  dsimp only [Rng.next]
  simp only [if_neg (by decide : ¬("Player 1" : String) = "Player 2"),
    if_neg (by decide : ¬("Player 2" : String) = "Player 1"),
    eq_self_iff_true, if_true, dSides_P2, dProfs_P1, dProfs_P2,
    skill_passing_r]
  rw [if_neg ?wskip]
  case wskip =>
    dsimp only [passingR]
    intro hcon
    have := le_trans hd3 (le_of_lt hcon)
    norm_num at this
    linarith
  rw [if_neg ?eskip]
  case eskip =>
    dsimp only
    intro hcon
    have := le_trans hd4 (le_of_lt hcon)
    norm_num at this
    linarith
  rw [if_neg ?dskip]
  case dskip =>
    norm_num +decide [passingR, ball_target, court_pos, get_retrieve,
      get_recovery, defaultGeo, max_def, min_def]
  refine ⟨_, rfl, rfl, rfl, ?_, ?_, rfl, rfl⟩
  · norm_num +decide [passingR, ball_target, court_pos, get_retrieve,
      get_recovery, defaultGeo, max_def, min_def]
  · rfl

/-- One rally exchange at the stable cycle, hitter `"Player 2"` (far side),
with all three event draws refused: the rally continues with `"Player 1"`
hitting from the near cycle position, four draws consumed. -/
theorem iter_far_cont (n i : ℕ) (st : SimSt)
    (hp : st.positions "Player 2" = (2409/10, 123))
    (hprev : st.prevShotCat = "baseline")
    (hm2u : st.momentum "Player 2" ≤ 1)
    (hf2l : 0 ≤ st.fatigue "Player 2") (hf1u : st.fatigue "Player 1" ≤ 1)
    (hd1 : 1/2 ≤ st.rng.stream st.rng.idx)
    (hd2 : 9/10 ≤ st.rng.stream (st.rng.idx + 1))
    (hd2u : st.rng.stream (st.rng.idx + 1) < 1)
    (hd3 : 3/10 ≤ st.rng.stream (st.rng.idx + 2))
    (hd4 : 3/10 ≤ st.rng.stream (st.rng.idx + 3)) :
    ∃ st', rally defaultGeo dProfs ("Player 1", "Player 2") dSides (n + 1) i
        "Player 2" "far" st =
      rally defaultGeo dProfs ("Player 1", "Player 2") dSides n (i + 1)
        "Player 1" "near" st' ∧
      st'.rng.stream = st.rng.stream ∧ st'.rng.idx = st.rng.idx + 4 ∧
      st'.positions "Player 1" = (2409/10, 278) ∧
      st'.prevShotCat = "baseline" ∧
      st'.fatigue = st.fatigue ∧ st'.momentum = st.momentum := by
  rw [rally]
  dsimp only
  rw [hp, hprev, choose_far_cycle (dProfs "Player 2") st.rng hd1 hd2 hd2u]
  dsimp only [Rng.next]
  simp only [if_neg (by decide : ¬("Player 1" : String) = "Player 2"),
    if_neg (by decide : ¬("Player 2" : String) = "Player 1"),
    eq_self_iff_true, if_true, dSides_P1, dProfs_P1, dProfs_P2,
    skill_passing_r]
  rw [if_neg ?wskip]
  case wskip =>
    dsimp only [passingR]
    intro hcon
    have := le_trans hd3 (le_of_lt hcon)
    norm_num at this
    linarith
  rw [if_neg ?eskip]
  case eskip =>
    dsimp only
    intro hcon
    have := le_trans hd4 (le_of_lt hcon)
    norm_num at this
    linarith
  rw [if_neg ?dskip]
  case dskip =>
    norm_num +decide [passingR, ball_target, court_pos, get_retrieve,
      get_recovery, defaultGeo, max_def, min_def]
  refine ⟨_, rfl, rfl, rfl, ?_, ?_, rfl, rfl⟩
  · norm_num +decide [passingR, ball_target, court_pos, get_retrieve,
      get_recovery, defaultGeo, max_def, min_def]
  · rfl

/-- The serve-return exchange: hitter `"Player 2"` at the far serve position
`(150, 45)` right after the serve, both event draws refused: the rally
continues with `"Player 1"` at the near cycle position, three draws
consumed. -/
theorem iter0_cont (n i : ℕ) (st : SimSt)
    (hp : st.positions "Player 2" = (150, 45))
    (hprev : st.prevShotCat = "serve")
    (hm2u : st.momentum "Player 2" ≤ 1)
    (hf2l : 0 ≤ st.fatigue "Player 2") (hf1u : st.fatigue "Player 1" ≤ 1)
    (hd1 : 9/10 ≤ st.rng.stream st.rng.idx)
    (hd1u : st.rng.stream st.rng.idx < 1)
    (hd2 : 3/10 ≤ st.rng.stream (st.rng.idx + 1))
    (hd3 : 3/10 ≤ st.rng.stream (st.rng.idx + 2)) :
    ∃ st', rally defaultGeo dProfs ("Player 1", "Player 2") dSides (n + 1) i
        "Player 2" "far" st =
      rally defaultGeo dProfs ("Player 1", "Player 2") dSides n (i + 1)
        "Player 1" "near" st' ∧
      st'.rng.stream = st.rng.stream ∧ st'.rng.idx = st.rng.idx + 3 ∧
      st'.positions "Player 1" = (2409/10, 278) ∧
      st'.prevShotCat = "baseline" ∧
      st'.fatigue = st.fatigue ∧ st'.momentum = st.momentum := by
  rw [rally]
  dsimp only
  rw [hp, hprev, choose_far_serve (dProfs "Player 2") st.rng hd1 hd1u]
  dsimp only [Rng.next]
  simp only [if_neg (by decide : ¬("Player 1" : String) = "Player 2"),
    if_neg (by decide : ¬("Player 2" : String) = "Player 1"),
    eq_self_iff_true, if_true, dSides_P1, dProfs_P1, dProfs_P2,
    skill_passing_r]
  rw [if_neg ?wskip]
  case wskip =>
    dsimp only [passingR]
    intro hcon
    have := le_trans hd2 (le_of_lt hcon)
    norm_num at this
    linarith
  rw [if_neg ?eskip]
  case eskip =>
    dsimp only
    intro hcon
    have := le_trans hd3 (le_of_lt hcon)
    norm_num at this
    linarith
  rw [if_neg ?dskip]
  case dskip =>
    norm_num +decide [passingR, ball_target, court_pos, get_retrieve,
      get_recovery, defaultGeo, max_def, min_def]
  refine ⟨_, rfl, rfl, rfl, ?_, ?_, rfl, rfl⟩
  · norm_num +decide [passingR, ball_target, court_pos, get_retrieve,
      get_recovery, defaultGeo, max_def, min_def]
  · rfl

/-- One rally exchange at the stable cycle, hitter `"Player 1"` (near side),
with the winner draw accepted (`0` drawn): the rally ends with
`"Player 1"` as point winner, three draws consumed, and both players
charged `(i + 1) / 100` fatigue. -/
theorem iter_near_win (n i : ℕ) (st : SimSt)
    (hp : st.positions "Player 1" = (2409/10, 278))
    (hprev : st.prevShotCat = "baseline")
    (hm1l : 0 ≤ st.momentum "Player 1")
    (hf1u : st.fatigue "Player 1" ≤ 10)
    (hd1 : 1/2 ≤ st.rng.stream st.rng.idx)
    (hd2 : 9/10 ≤ st.rng.stream (st.rng.idx + 1))
    (hd2u : st.rng.stream (st.rng.idx + 1) < 1)
    (hd3 : st.rng.stream (st.rng.idx + 2) = 0) :
    ∃ st', rally defaultGeo dProfs ("Player 1", "Player 2") dSides (n + 1) i
        "Player 1" "near" st = ("Player 1", st') ∧
      st'.rng.stream = st.rng.stream ∧ st'.rng.idx = st.rng.idx + 3 ∧
      st'.fatigue "Player 1" = st.fatigue "Player 1" + (i + 1) / 100 ∧
      st'.fatigue "Player 2" = st.fatigue "Player 2" + (i + 1) / 100 ∧
      st'.momentum = st.momentum := by
  rw [rally]
  dsimp only
  rw [hp, hprev, choose_near_cycle (dProfs "Player 1") st.rng hd1 hd2 hd2u]
  dsimp only [Rng.next]
  simp only [if_neg (by decide : ¬("Player 1" : String) = "Player 2"),
    if_neg (by decide : ¬("Player 2" : String) = "Player 1"),
    eq_self_iff_true, if_true, dSides_P2, dProfs_P1, dProfs_P2,
    skill_passing_r]
  rw [if_pos ?wfire]
  case wfire =>
    dsimp only [passingR]
    rw [hd3]
    linarith
  refine ⟨_, rfl, rfl, rfl, ?_, ?_, rfl⟩
  · simp only [if_neg (by decide : ¬("Player 1" : String) = "Player 2"),
      eq_self_iff_true, if_true]
  · simp only [if_neg (by decide : ¬("Player 2" : String) = "Player 1"),
      eq_self_iff_true, if_true]

/-- Driving the stable cycle: `m` consecutive exchange pairs (near hitter,
then far hitter) in which every one of the next `8 * m` draws refuses its
event (value `999/1000`) return to a near-hitter cycle state, consuming
`8 * m` draws and leaving fatigue and momentum untouched. -/
theorem run_pairs (m : ℕ) : ∀ (n i : ℕ) (st : SimSt),
    st.positions "Player 1" = (2409/10, 278) →
    st.prevShotCat = "baseline" →
    st.momentum "Player 1" ≤ 1 → st.momentum "Player 2" ≤ 1 →
    0 ≤ st.fatigue "Player 1" → st.fatigue "Player 1" ≤ 1 →
    0 ≤ st.fatigue "Player 2" → st.fatigue "Player 2" ≤ 1 →
    (∀ j, j < 8 * m → st.rng.stream (st.rng.idx + j) = 999/1000) →
    ∃ st', rally defaultGeo dProfs ("Player 1", "Player 2") dSides
        (n + 2 * m) i "Player 1" "near" st =
      rally defaultGeo dProfs ("Player 1", "Player 2") dSides n (i + 2 * m)
        "Player 1" "near" st' ∧
      st'.rng.stream = st.rng.stream ∧ st'.rng.idx = st.rng.idx + 8 * m ∧
      st'.positions "Player 1" = (2409/10, 278) ∧
      st'.prevShotCat = "baseline" ∧
      st'.fatigue = st.fatigue ∧ st'.momentum = st.momentum := by
  induction m with
  | zero =>
    intro n i st hp hprev _ _ _ _ _ _ _
    exact ⟨st, by norm_num, rfl, by norm_num, hp, hprev, rfl, rfl⟩
  | succ m ih =>
    intro n i st hp hprev hm1 hm2 hf1l hf1u hf2l hf2u hd
    have hd0 : st.rng.stream st.rng.idx = 999/1000 := by
      have := hd 0 (by omega)
      rwa [Nat.add_zero] at this
    obtain ⟨st1, heq1, hs1, hi1, hp1, hpr1, hfat1, hmom1⟩ :=
      iter_near_cont (n + 2 * m + 1) i st hp hprev hm1 hf1l hf2u
        (by rw [hd0]; norm_num)
        (by rw [hd 1 (by omega)]; norm_num)
        (by rw [hd 1 (by omega)]; norm_num)
        (by rw [hd 2 (by omega)]; norm_num)
        (by rw [hd 3 (by omega)]; norm_num)
    have hd4 : ∀ j, j < 4 → st1.rng.stream (st1.rng.idx + j) = 999/1000 := by
      intro j hj
      rw [hs1, hi1, Nat.add_assoc]
      exact hd (4 + j) (by omega)
    obtain ⟨st2, heq2, hs2, hi2, hp2, hpr2, hfat2, hmom2⟩ :=
      iter_far_cont (n + 2 * m) (i + 1) st1 hp1 hpr1
        (by rw [hmom1]; exact hm2)
        (by rw [hfat1]; exact hf2l) (by rw [hfat1]; exact hf1u)
        (by have h0 := hd4 0 (by omega)
            rw [Nat.add_zero] at h0
            rw [h0]; norm_num)
        (by rw [hd4 1 (by omega)]; norm_num)
        (by rw [hd4 1 (by omega)]; norm_num)
        (by rw [hd4 2 (by omega)]; norm_num)
        (by rw [hd4 3 (by omega)]; norm_num)
    obtain ⟨st', heq3, hs3, hi3, hp3, hpr3, hfat3, hmom3⟩ :=
      ih n (i + 2) st2 hp2 hpr2
        (by rw [hmom2, hmom1]; exact hm1) (by rw [hmom2, hmom1]; exact hm2)
        (by rw [hfat2, hfat1]; exact hf1l) (by rw [hfat2, hfat1]; exact hf1u)
        (by rw [hfat2, hfat1]; exact hf2l) (by rw [hfat2, hfat1]; exact hf2u)
        (by intro j hj
            have e8 : st2.rng.idx = st.rng.idx + 8 := by rw [hi2, hi1]
            rw [hs2, hs1, e8, Nat.add_assoc]
            exact hd (8 + j) (by omega))
    refine ⟨st', ?_, hs3.trans (hs2.trans hs1), ?_, hp3, hpr3, ?_, ?_⟩
    · have efuel : n + 2 * (m + 1) = n + 2 * m + 1 + 1 := by ring
      have eidx : i + 2 * (m + 1) = i + 2 + 2 * m := by ring
      have e2 : i + 1 + 1 = i + 2 := rfl
      rw [efuel, heq1, heq2, eidx, e2, heq3]
    · rw [hi3, hi2, hi1]; ring
    · rw [hfat3, hfat2, hfat1]
    · rw [hmom3, hmom2, hmom1]

/-- The full 50-exchange rally of an `exStream` point (rng index `≡ 2 mod
200` at entry): the serve return, 24 stable exchange pairs, then the winner
draw `0` at the 50th exchange.  `"Player 1"` wins the point and both
players collect `1/2` fatigue; 198 draws are consumed. -/
theorem rally_win_50 (st : SimSt)
    (hp : st.positions "Player 2" = (150, 45))
    (hprev : st.prevShotCat = "serve")
    (hidx : st.rng.idx % 200 = 2) (hs : st.rng.stream = exStream)
    (hm1l : 0 ≤ st.momentum "Player 1") (hm1u : st.momentum "Player 1" ≤ 1)
    (hm2u : st.momentum "Player 2" ≤ 1)
    (hf1l : 0 ≤ st.fatigue "Player 1") (hf1u : st.fatigue "Player 1" ≤ 1)
    (hf2l : 0 ≤ st.fatigue "Player 2") (hf2u : st.fatigue "Player 2" ≤ 1) :
    ∃ st', rally defaultGeo dProfs ("Player 1", "Player 2") dSides 50 0
        "Player 2" "far" st = ("Player 1", st') ∧
      st'.rng.stream = exStream ∧ st'.rng.idx = st.rng.idx + 198 ∧
      st'.fatigue "Player 1" = st.fatigue "Player 1" + 1/2 ∧
      st'.fatigue "Player 2" = st.fatigue "Player 2" + 1/2 ∧
      st'.momentum = st.momentum := by
  obtain ⟨st2, heq0, hs2, hi2, hp2, hpr2, hfat2, hmom2⟩ :=
    iter0_cont 49 0 st hp hprev hm2u hf2l hf1u
      (by rw [hs, exStream_high st.rng.idx (by omega)]; norm_num)
      (by rw [hs, exStream_high st.rng.idx (by omega)]; norm_num)
      (by rw [hs, exStream_high (st.rng.idx + 1) (by omega)]; norm_num)
      (by rw [hs, exStream_high (st.rng.idx + 2) (by omega)]; norm_num)
  obtain ⟨st3, heq1, hs3, hi3, hp3, hpr3, hfat3, hmom3⟩ :=
    run_pairs 24 1 1 st2 hp2 hpr2
      (by rw [hmom2]; exact hm1u) (by rw [hmom2]; exact hm2u)
      (by rw [hfat2]; exact hf1l) (by rw [hfat2]; exact hf1u)
      (by rw [hfat2]; exact hf2l) (by rw [hfat2]; exact hf2u)
      (by intro j hj
          rw [hs2, hs, hi2]
          exact exStream_high _ (by omega))
  obtain ⟨st4, heq2, hs4, hi4, hfp1, hfp2, hmom4⟩ :=
    iter_near_win 0 (1 + 2 * 24) st3 hp3 hpr3
      (by rw [hmom3, hmom2]; exact hm1l)
      (by rw [hfat3, hfat2]; linarith)
      (by rw [hs3, hs2, hs, hi3, hi2,
           exStream_high (st.rng.idx + 3 + 8 * 24) (by omega)]; norm_num)
      (by rw [hs3, hs2, hs, hi3, hi2,
           exStream_high (st.rng.idx + 3 + 8 * 24 + 1) (by omega)]; norm_num)
      (by rw [hs3, hs2, hs, hi3, hi2,
           exStream_high (st.rng.idx + 3 + 8 * 24 + 1) (by omega)]; norm_num)
      (by rw [hs3, hs2, hs, hi3, hi2]
          exact exStream_zero _ (by omega))
  rw [Nat.zero_add] at heq2
  refine ⟨st4, ?_, hs4.trans (hs3.trans (hs2.trans hs)), ?_, ?_, ?_,
    hmom4.trans (hmom3.trans hmom2)⟩
  · have e50 : (50:ℕ) = 49 + 1 := rfl
    have e49 : (49:ℕ) = 1 + 2 * 24 := rfl
    rw [e50, heq0, e49, heq1]
    exact heq2
  · rw [hi4, hi3, hi2]
  · rw [hfp1, hfat3, hfat2]
    norm_num
  · rw [hfp2, hfat3, hfat2]
    norm_num

/-- One full `exStream` point (rng index `≡ 0 mod 200` at entry):
`"Player 2"` serves (first draw high), no ace (second draw high), and the
50-exchange rally ends with `"Player 1"` winning; exactly 200 draws are
consumed and each player gains `1/2` fatigue. -/
theorem point_win (emit : Bool) (st : SimSt)
    (hidx : st.rng.idx % 200 = 0) (hs : st.rng.stream = exStream)
    (hm1l : 0 ≤ st.momentum "Player 1") (hm1u : st.momentum "Player 1" ≤ 1)
    (hm2u : st.momentum "Player 2" ≤ 1)
    (hf1l : 0 ≤ st.fatigue "Player 1") (hf1u : st.fatigue "Player 1" ≤ 1)
    (hf2l : 0 ≤ st.fatigue "Player 2") (hf2u : st.fatigue "Player 2" ≤ 1) :
    ∃ st', play_point defaultGeo dProfs ("Player 1", "Player 2") dSides emit
        st = ("Player 1", st') ∧
      st'.rng.stream = exStream ∧ st'.rng.idx = st.rng.idx + 200 ∧
      st'.fatigue "Player 1" = st.fatigue "Player 1" + 1/2 ∧
      st'.fatigue "Player 2" = st.fatigue "Player 2" + 1/2 ∧
      st'.momentum = st.momentum := by
  obtain ⟨st', heq, hs', hi', hf1', hf2', hmom'⟩ :=
    rally_win_50
      { st with rng := ⟨st.rng.stream, st.rng.idx + 1 + 1⟩,
                positions := fun p =>
                  if p = "Player 1" then
                    court_pos defaultGeo "near" (1/2) (1/10)
                  else if p = "Player 2" then
                    court_pos defaultGeo "far" (1/2) 0
                  else st.positions p,
                prevShotCat := "serve" }
      (by norm_num +decide [court_pos, defaultGeo]) rfl
      (by show (st.rng.idx + 1 + 1) % 200 = 2
          omega)
      hs hm1l hm1u hm2u hf1l hf1u hf2l hf2u
  refine ⟨st', ?_, hs', ?_, hf1', hf2', hmom'⟩
  · rw [play_point]
    dsimp only [Rng.next]
    have e0 : st.rng.stream st.rng.idx = 999/1000 := by
      rw [hs]; exact exStream_high _ (by omega)
    have e1 : st.rng.stream (st.rng.idx + 1) = 999/1000 := by
      rw [hs]; exact exStream_high _ (by omega)
    rw [e0, e1]
    simp only [if_neg (show ¬(999/1000 : ℚ) < 1/2 by norm_num),
      if_neg (show ¬(1 : ℕ) = 0 by norm_num)]
    rw [if_neg ?ace]
    case ace =>
      rw [dProfs_P2]
      norm_num
    exact heq
  · have h2 : st'.rng.idx = st.rng.idx + 1 + 1 + 198 := hi'
    omega

/-- One scoring-loop iteration of an `exStream` match while the loop guard
holds: `"Player 1"` takes the point, the first score rises, 200 draws are
consumed, both fatigues grow `1/2`, and the momenta take the clamped
winner/loser updates. -/
theorem pmp_step (emit : Bool) (f a b : ℕ) (st : SimSt)
    (hguard : max a b < POINTS_TO_WIN)
    (hidx : st.rng.idx % 200 = 0) (hs : st.rng.stream = exStream)
    (hm1l : 0 ≤ st.momentum "Player 1") (hm1u : st.momentum "Player 1" ≤ 1)
    (hm2u : st.momentum "Player 2" ≤ 1)
    (hf1l : 0 ≤ st.fatigue "Player 1") (hf1u : st.fatigue "Player 1" ≤ 1)
    (hf2l : 0 ≤ st.fatigue "Player 2") (hf2u : st.fatigue "Player 2" ≤ 1) :
    ∃ st', play_match_points defaultGeo dProfs ("Player 1", "Player 2")
        dSides emit (f + 1) (a, b) st =
      play_match_points defaultGeo dProfs ("Player 1", "Player 2") dSides
        emit f (a + 1, b) st' ∧
      st'.rng.stream = exStream ∧ st'.rng.idx = st.rng.idx + 200 ∧
      st'.fatigue "Player 1" = st.fatigue "Player 1" + 1/2 ∧
      st'.fatigue "Player 2" = st.fatigue "Player 2" + 1/2 ∧
      st'.momentum "Player 1" = min 1 (st.momentum "Player 1" + 1/10) ∧
      st'.momentum "Player 2" = max 0 (st.momentum "Player 2" - 1/20) := by
  obtain ⟨stA, heq, hsA, hiA, hfA1, hfA2, hmomA⟩ :=
    point_win emit st hidx hs hm1l hm1u hm2u hf1l hf1u hf2l hf2u
  rw [play_match_points]
  dsimp only
  rw [if_pos hguard, heq]
  dsimp only
  simp only [if_neg (by decide : ¬("Player 1" : String) = "Player 2"),
    if_neg (by decide : ¬("Player 2" : String) = "Player 1"),
    eq_self_iff_true, if_true]
  refine ⟨_, rfl, hsA, hiA, hfA1, hfA2, ?_, ?_⟩
  · dsimp only
    simp only [if_neg (by decide : ¬("Player 1" : String) = "Player 2"),
      eq_self_iff_true, if_true, hmomA]
  · dsimp only
    simp only [if_neg (by decide : ¬("Player 2" : String) = "Player 1"),
      eq_self_iff_true, if_true, hmomA]

/-- C6 counterexample: from the app's initial simulation state (momentum
`1/2`, fatigue `0` for everyone) there is an RNG stream (`exStream`) under
which `_play_match`'s scoring loop ends 3-0 with both players' fatigue at
`3/2` — momentum updates are clamped into `[0,1]`, but the in-rally fatigue
increments are not, so fatigue leaves `[0,1]` during a session run. -/
theorem claim_C6_counterexample :
    ∃ st', play_match_points defaultGeo dProfs ("Player 1", "Player 2")
        dSides true (2 * POINTS_TO_WIN) (0, 0)
        ⟨⟨exStream, 0⟩, fun _ => 1/2, fun _ => 0, fun _ => (0, 0),
          "baseline"⟩ = ((3, 0), st') ∧
      st'.fatigue "Player 1" = 3/2 ∧ 1 < st'.fatigue "Player 1" := by
  obtain ⟨st1, heq1, hs1, hi1, hf11, hf12, hmo11, hmo12⟩ :=
    pmp_step true 5 0 0
      ⟨⟨exStream, 0⟩, fun _ => 1/2, fun _ => 0, fun _ => (0, 0), "baseline"⟩
      (by decide) (by decide) rfl
      (by norm_num) (by norm_num) (by norm_num)
      (by norm_num) (by norm_num) (by norm_num) (by norm_num)
  obtain ⟨st2, heq2, hs2, hi2, hf21, hf22, hmo21, hmo22⟩ :=
    pmp_step true 4 (0 + 1) 0 st1
      (by decide)
      (by simp only [hi1]) hs1
      (by rw [hmo11]; norm_num [min_def])
      (by rw [hmo11]; norm_num [min_def])
      (by rw [hmo12]; norm_num [max_def])
      (by rw [hf11]; norm_num) (by rw [hf11]; norm_num)
      (by rw [hf12]; norm_num) (by rw [hf12]; norm_num)
  obtain ⟨st3, heq3, hs3, hi3, hf31, hf32, hmo31, hmo32⟩ :=
    pmp_step true 3 (0 + 1 + 1) 0 st2
      (by decide)
      (by simp only [hi2, hi1]) hs2
      (by rw [hmo21, hmo11]; norm_num [min_def])
      (by rw [hmo21, hmo11]; norm_num [min_def])
      (by rw [hmo22, hmo12]; norm_num [max_def, min_def])
      (by rw [hf21, hf11]; norm_num) (by rw [hf21, hf11]; norm_num)
      (by rw [hf22, hf12]; norm_num) (by rw [hf22, hf12]; norm_num)
  have e6 : 2 * POINTS_TO_WIN = 5 + 1 := rfl
  rw [e6, heq1]
  have e5 : (5 : ℕ) = 4 + 1 := rfl
  rw [e5, heq2]
  have e4 : (4 : ℕ) = 3 + 1 := rfl
  rw [e4, heq3]
  have e3 : (3 : ℕ) = 2 + 1 := rfl
  rw [e3, play_match_points]
  dsimp only
  rw [if_neg (by decide : ¬(max (0 + 1 + 1 + 1) 0 < POINTS_TO_WIN))]
  exact ⟨st3, rfl, by rw [hf31, hf21, hf11]; norm_num,
    by rw [hf31, hf21, hf11]; norm_num⟩

/-- A rally under the all-refusing stream `constHigh`: all 50 exchanges run
without any winner, error or failed-retrieval event, the fuel runs out, and
the `random.choice` fallback names `"Player 2"` the point winner; 200 draws
are consumed and fatigue and momentum are exactly unchanged. -/
theorem rally_cap_50 (st : SimSt)
    (hp : st.positions "Player 2" = (150, 45))
    (hprev : st.prevShotCat = "serve")
    (hs : st.rng.stream = constHigh)
    (hm1u : st.momentum "Player 1" ≤ 1) (hm2u : st.momentum "Player 2" ≤ 1)
    (hf1l : 0 ≤ st.fatigue "Player 1") (hf1u : st.fatigue "Player 1" ≤ 1)
    (hf2l : 0 ≤ st.fatigue "Player 2") (hf2u : st.fatigue "Player 2" ≤ 1) :
    ∃ st', rally defaultGeo dProfs ("Player 1", "Player 2") dSides 50 0
        "Player 2" "far" st = ("Player 2", st') ∧
      st'.rng.idx = st.rng.idx + 200 ∧
      st'.fatigue = st.fatigue ∧ st'.momentum = st.momentum := by
  obtain ⟨st2, heq0, hs2, hi2, hp2, hpr2, hfat2, hmom2⟩ :=
    iter0_cont 49 0 st hp hprev hm2u hf2l hf1u
      (by rw [hs]; norm_num [constHigh]) (by rw [hs]; norm_num [constHigh])
      (by rw [hs]; norm_num [constHigh]) (by rw [hs]; norm_num [constHigh])
  obtain ⟨st3, heq1, hs3, hi3, hp3, hpr3, hfat3, hmom3⟩ :=
    run_pairs 24 1 1 st2 hp2 hpr2
      (by rw [hmom2]; exact hm1u) (by rw [hmom2]; exact hm2u)
      (by rw [hfat2]; exact hf1l) (by rw [hfat2]; exact hf1u)
      (by rw [hfat2]; exact hf2l) (by rw [hfat2]; exact hf2u)
      (by intro j hj
          rw [hs2, hs]
          rfl)
  obtain ⟨st4, heq2, hs4, hi4, hp4, hpr4, hfat4, hmom4⟩ :=
    iter_near_cont 0 (1 + 2 * 24) st3 hp3 hpr3
      (by rw [hmom3, hmom2]; exact hm1u)
      (by rw [hfat3, hfat2]; exact hf1l)
      (by rw [hfat3, hfat2]; exact hf2u)
      (by rw [hs3, hs2, hs]; norm_num [constHigh])
      (by rw [hs3, hs2, hs]; norm_num [constHigh])
      (by rw [hs3, hs2, hs]; norm_num [constHigh])
      (by rw [hs3, hs2, hs]; norm_num [constHigh])
      (by rw [hs3, hs2, hs]; norm_num [constHigh])
  rw [Nat.zero_add] at heq2
  have ecH : st4.rng.stream st4.rng.idx = 999/1000 := by
    rw [hs4, hs3, hs2, hs]
    rfl
  refine ⟨{ st4 with rng := ⟨st4.rng.stream, st4.rng.idx + 1⟩ },
    ?_, ?_, hfat4.trans (hfat3.trans hfat2),
    hmom4.trans (hmom3.trans hmom2)⟩
  · have e50 : (50 : ℕ) = 49 + 1 := rfl
    have e49 : (49 : ℕ) = 1 + 2 * 24 := rfl
    rw [e50, heq0, e49, heq1, heq2, rally]
    dsimp only [Rng.next]
    rw [ecH]
    norm_num [pyChoice]
  · have h4 : st4.rng.idx = st.rng.idx + 3 + 8 * 24 + 4 := by
      rw [hi4, hi3, hi2]
    show st4.rng.idx + 1 = st.rng.idx + 200
    omega

/-- One full point under the all-refusing stream `constHigh`: `"Player 2"`
serves, no ace, the rally runs to the 50-exchange cap and the
`random.choice` fallback names `"Player 2"` the winner; 202 draws are
consumed and fatigue and momentum are exactly unchanged. -/
theorem point_cap (emit : Bool) (st : SimSt)
    (hs : st.rng.stream = constHigh)
    (hm1u : st.momentum "Player 1" ≤ 1) (hm2u : st.momentum "Player 2" ≤ 1)
    (hf1l : 0 ≤ st.fatigue "Player 1") (hf1u : st.fatigue "Player 1" ≤ 1)
    (hf2l : 0 ≤ st.fatigue "Player 2") (hf2u : st.fatigue "Player 2" ≤ 1) :
    ∃ st', play_point defaultGeo dProfs ("Player 1", "Player 2") dSides emit
        st = ("Player 2", st') ∧
      st'.rng.idx = st.rng.idx + 202 ∧
      st'.fatigue = st.fatigue ∧ st'.momentum = st.momentum := by
  obtain ⟨st', heq, hi', hfat', hmom'⟩ :=
    rally_cap_50
      { st with rng := ⟨st.rng.stream, st.rng.idx + 1 + 1⟩,
                positions := fun p =>
                  if p = "Player 1" then
                    court_pos defaultGeo "near" (1/2) (1/10)
                  else if p = "Player 2" then
                    court_pos defaultGeo "far" (1/2) 0
                  else st.positions p,
                prevShotCat := "serve" }
      (by norm_num +decide [court_pos, defaultGeo]) rfl hs
      hm1u hm2u hf1l hf1u hf2l hf2u
  refine ⟨st', ?_, ?_, hfat', hmom'⟩
  · rw [play_point]
    dsimp only [Rng.next]
    have e0 : st.rng.stream st.rng.idx = 999/1000 := by
      rw [hs]
      rfl
    have e1 : st.rng.stream (st.rng.idx + 1) = 999/1000 := by
      rw [hs]
      rfl
    rw [e0, e1]
    simp only [if_neg (show ¬(999/1000 : ℚ) < 1/2 by norm_num),
      if_neg (show ¬(1 : ℕ) = 0 by norm_num)]
    rw [if_neg ?ace]
    case ace =>
      rw [dProfs_P2]
      norm_num
    exact heq
  · have h2 : st'.rng.idx = st.rng.idx + 1 + 1 + 200 := hi'
    omega

/-- C7 counterexample: under the all-refusing stream `constHigh` a point from
the app's initial simulation state runs the full 50-exchange rally, ends by
the rally-cap `random.choice` fallback naming `"Player 2"` the winner, and
leaves both fatigues exactly `0` — not `0 + 0.01 * 50` as the claim's
"regardless of how the point ended" demands.  The 202 consumed draws
(2 serve draws + 199 rally draws + 1 fallback draw) document the 50
exchanges. -/
theorem claim_C7_counterexample :
    ∃ st', play_point defaultGeo dProfs ("Player 1", "Player 2") dSides true
        ⟨⟨constHigh, 0⟩, fun _ => 1/2, fun _ => 0, fun _ => (0, 0),
          "baseline"⟩ = ("Player 2", st') ∧
      st'.fatigue "Player 1" = 0 ∧ st'.fatigue "Player 2" = 0 ∧
      st'.rng.idx = 202 := by
  obtain ⟨st', heq, hi', hfat', hmom'⟩ :=
    point_cap true
      ⟨⟨constHigh, 0⟩, fun _ => 1/2, fun _ => 0, fun _ => (0, 0),
        "baseline"⟩
      rfl (by norm_num) (by norm_num) (by norm_num) (by norm_num)
      (by norm_num) (by norm_num)
  refine ⟨st', heq, ?_, ?_, ?_⟩
  · rw [hfat']
  · rw [hfat']
  · rw [hi']

end TennisSim
